import Mathlib

set_option maxHeartbeats 1000000

/-!
Verification development for the solomo location-context library.

The repository ships two provider implementations:
* `src/src/index.tsx` (the rollup build entry, modelled in namespace `Idx`):
  permission tracking, a single-slot position cache, a continuous-watch
  subscription with a watch-intent flag and app-state handling.
* `src/src/Context.tsx` (modelled in namespace `Ctx`): the richer provider with
  geofence registration, enter/exit/dwell events, dwell timers and teardown.

Machine numbers: timestamps and durations are modelled as `Nat` milliseconds
(JS `Date.now()` values); geographic coordinates are modelled as real numbers
where the geometry matters and are kept as an abstract coordinate type `C`
elsewhere, since the bookkeeping never inspects them.
-/

namespace Solomo

/-- Error kinds. `LocationErrorType` from the source; the `Context.tsx` enum adds
`settings_error` on top of the five kinds in `index.tsx`. -/
inductive LocationErrorType where
  | permission_denied
  | position_unavailable
  | timeout
  | network_error
  | unknown
  | settings_error
deriving DecidableEq

/-- `LocationError` record: kind plus human-readable message. The optional
platform `code`/`details` fields are omitted; no claim reads them. -/
structure LocationError where
  type : LocationErrorType
  message : String
deriving DecidableEq

namespace Ctx

/-- `GeofenceRegion` from `Context.tsx`: id, center, radius. The coordinate type
is a parameter `C` (instantiated with `ℝ` for the geometry claims). The optional
`notificationMessage` field is omitted; nothing in the evaluator reads it. -/
structure GeofenceRegion (C : Type) where
  id : String
  latitude : C
  longitude : C
  radius : C
deriving DecidableEq

/-- `GeofenceEventType` from `Context.tsx`. -/
inductive GeofenceEventType where
  | enter
  | exit
  | dwell
deriving DecidableEq

/-- `GeofenceEvent` from `Context.tsx`: region, kind, the position sample
(latitude, longitude pair) and timestamp. -/
structure GeofenceEvent (C : Type) where
  region : GeofenceRegion C
  eventType : GeofenceEventType
  location : C × C
  timestamp : Nat
deriving DecidableEq

/-- One entry of `geofenceDwellTimers.current`: a scheduled `setTimeout` handle,
keyed by region id, carrying the closure data (region and the enter-time
position) and its absolute due time `fireAt = enter time + 10000`. A handle
that has already fired or been cleared is inert in JS; we model clearing and
firing by removing the entry. -/
structure DwellTimer (C : Type) where
  id : String
  region : GeofenceRegion C
  location : C × C
  fireAt : Nat
deriving DecidableEq

/-- `LocationAddress` from `Context.tsx`. -/
structure LocationAddress where
  city : Option String := none
  country : Option String := none
  region : Option String := none
  street : Option String := none
  postalCode : Option String := none
  timezone : Option String := none
  name : Option String := none
deriving DecidableEq

/-- The mutable state of the `LocationProvider` in `Context.tsx` that the claims
touch: geofence bookkeeping (state hooks and refs), the cache refs, the watch
subscription and the mounted flag. The `subscription` field holds the
subscription handle id; `retryTimeoutRef` is never set anywhere in the source
and is omitted. -/
structure CtxState (C : Type) where
  geofences : List (GeofenceRegion C)
  lastGeofenceStates : List (String × Bool)
  geofenceDwellTimers : List (DwellTimer C)
  geofenceEvents : List (GeofenceEvent C)
  location : Option (C × C)
  address : Option LocationAddress
  lastUpdated : Option Nat
  lastLocationRef : Option (C × C)
  lastAddressRef : Option LocationAddress
  error : Option LocationError
  subscription : Option Nat
  isWatching : Bool
  mounted : Bool
deriving DecidableEq

/-- Read of `lastGeofenceStates.current[id]` coerced with `!!`: a missing key
reads as `false`. -/
def lookupState (m : List (String × Bool)) (rid : String) : Bool :=
  match m.find? (fun p => p.1 == rid) with
  | some p => p.2
  | none => false

/-- Record assignment `lastGeofenceStates.current[id] = b` (overwrite or
insert); modelled as remove-then-append, which is lookup-equivalent. -/
def setState (m : List (String × Bool)) (rid : String) (b : Bool) :
    List (String × Bool) :=
  m.filter (fun p => !(p.1 == rid)) ++ [(rid, b)]

/-- `clearTimeout(geofenceDwellTimers.current[id]); delete ...[id]`. -/
def removeTimer {C : Type} (ts : List (DwellTimer C)) (rid : String) :
    List (DwellTimer C) :=
  ts.filter (fun t => !(t.id == rid))

/-- `clearTimeout` of any previous handle for the id followed by
`geofenceDwellTimers.current[id] = setTimeout(...)`. -/
def setTimer {C : Type} (ts : List (DwellTimer C)) (tm : DwellTimer C) :
    List (DwellTimer C) :=
  removeTimer ts tm.id ++ [tm]

/-- Accumulator threaded through the `geofences.forEach` loop of
`checkGeofences`: the containment record, the dwell-timer record, and the
`events` array built during this update. -/
structure GeoAcc (C : Type) where
  states : List (String × Bool)
  timers : List (DwellTimer C)
  events : List (GeofenceEvent C)
deriving DecidableEq

/-- The body of the `geofences.forEach(region => ...)` loop in `checkGeofences`
(`Context.tsx` lines 388-445). `ins r loc` is the containment test
`getDistance(...) <= radius` (kept as a parameter; instantiated with the real
haversine test for the geometry claims). `now` is `Date.now()`. -/
def checkRegion {C : Type} (ins : GeofenceRegion C → C × C → Bool)
    (loc : C × C) (now : Nat) (acc : GeoAcc C) (r : GeofenceRegion C) :
    GeoAcc C :=
  let wasInside := lookupState acc.states r.id
  let isInside := ins r loc
  if !wasInside && isInside then
    { states := setState acc.states r.id isInside
      timers := setTimer acc.timers ⟨r.id, r, loc, now + 10000⟩
      events := acc.events ++ [⟨r, .enter, loc, now⟩] }
  else if wasInside && !isInside then
    { states := setState acc.states r.id isInside
      timers := removeTimer acc.timers r.id
      events := acc.events ++ [⟨r, .exit, loc, now⟩] }
  else
    { acc with states := setState acc.states r.id isInside }

/-- `checkGeofences` (`Context.tsx` lines 383-450): early return on an empty
region list, otherwise fold the per-region body over the registered regions,
append the produced events to the event log, and report them (the `events`
array also drives the `onGeofenceEvent` callback, which is why the function
returns them). -/
def checkGeofences {C : Type} (ins : GeofenceRegion C → C × C → Bool)
    (s : CtxState C) (loc : C × C) (now : Nat) :
    CtxState C × List (GeofenceEvent C) :=
  if s.geofences.isEmpty then (s, [])
  else
    let acc := s.geofences.foldl (checkRegion ins loc now)
      ⟨s.lastGeofenceStates, s.geofenceDwellTimers, []⟩
    ({ s with lastGeofenceStates := acc.states
              geofenceDwellTimers := acc.timers
              geofenceEvents := s.geofenceEvents ++ acc.events }, acc.events)

/-- `registerGeofences` (`Context.tsx` lines 452-456): replace the region list,
reset the containment record, clear the event log. The dwell-timer record is
not touched. -/
def registerGeofences {C : Type} (s : CtxState C)
    (regions : List (GeofenceRegion C)) : CtxState C :=
  { s with geofences := regions, lastGeofenceStates := [], geofenceEvents := [] }

/-- `unregisterGeofences` (`Context.tsx` lines 458-469): clear the region list,
the containment record, every pending dwell timer, and the event log. -/
def unregisterGeofences {C : Type} (s : CtxState C) : CtxState C :=
  { s with geofences := [], lastGeofenceStates := [],
           geofenceDwellTimers := [], geofenceEvents := [] }

/-- Passage of (event-loop) time up to instant `now`: every scheduled dwell
timer whose due time has been reached fires, appending its `dwell` event to the
event log (`setGeofenceEvents(prev => [...prev, dwellEvent])` in the timer
callback) with the due time as its timestamp, and its handle becomes inert. -/
def fireDue {C : Type} (s : CtxState C) (now : Nat) :
    CtxState C × List (GeofenceEvent C) :=
  let fired := (s.geofenceDwellTimers.filter (fun t => decide (t.fireAt ≤ now))).map
    (fun t => ⟨t.region, .dwell, t.location, t.fireAt⟩)
  ({ s with
      geofenceDwellTimers :=
        s.geofenceDwellTimers.filter (fun t => !decide (t.fireAt ≤ now))
      geofenceEvents := s.geofenceEvents ++ fired }, fired)

/-- External stimuli delivered to the geofence evaluator. -/
inductive GeoCmd (C : Type) where
  | update (loc : C × C)
  | register (regions : List (GeofenceRegion C))
  | unregister
  | advance
deriving DecidableEq

/-- Discriminator for registration stimuli. -/
def GeoCmd.isRegister {C : Type} : GeoCmd C → Bool
  | .register _ => true
  | _ => false

/-- One event-loop step at instant `now`: due timers fire first, then the
stimulus is processed. Returns the new state and all events emitted during the
step (timer callbacks and `checkGeofences` events). -/
def geoStep {C : Type} (ins : GeofenceRegion C → C × C → Bool) (s : CtxState C)
    (now : Nat) (c : GeoCmd C) : CtxState C × List (GeofenceEvent C) :=
  let (s1, fired) := fireDue s now
  match c with
  | .update loc =>
    let (s2, evs) := checkGeofences ins s1 loc now
    (s2, fired ++ evs)
  | .register rs => (registerGeofences s1 rs, fired)
  | .unregister => (unregisterGeofences s1, fired)
  | .advance => (s1, fired)

/-- Run a timestamped stimulus sequence, collecting every emitted event. -/
def geoRun {C : Type} (ins : GeofenceRegion C → C × C → Bool) (s : CtxState C) :
    List (Nat × GeoCmd C) → CtxState C × List (GeofenceEvent C)
  | [] => (s, [])
  | (now, c) :: rest =>
    let (s1, evs) := geoStep ins s now c
    let (s2, evs') := geoRun ins s1 rest
    (s2, evs ++ evs')

/-- A provider state fresh after mount: nothing registered, nothing cached. -/
def freshCtx {C : Type} : CtxState C :=
  { geofences := [], lastGeofenceStates := [], geofenceDwellTimers := [],
    geofenceEvents := [], location := none, address := none, lastUpdated := none,
    lastLocationRef := none, lastAddressRef := none, error := none,
    subscription := none, isWatching := false, mounted := true }

/-- Sample containment test over integer coordinates (inside exactly at the
center), used to exercise the timer bookkeeping on concrete runs. -/
def insCenter : GeofenceRegion Int → Int × Int → Bool :=
  fun r p => p.1 == r.latitude && p.2 == r.longitude

/-- Sample region for concrete runs. -/
def demoRegion : GeofenceRegion Int := ⟨"home", 0, 0, 100⟩

lemma fireDue_of_no_timers {C : Type} (s : CtxState C) (now : Nat)
    (hs : s.geofenceDwellTimers = []) : fireDue s now = (s, []) := by
  cases s
  simp_all [fireDue]

lemma geoRun_no_dwell_core {C : Type} (ins : GeofenceRegion C → C × C → Bool)
    (cmds : List (Nat × GeoCmd C)) :
    ∀ s : CtxState C, s.geofenceDwellTimers = [] → s.geofences = [] →
      (∀ p ∈ cmds, p.2.isRegister = false) →
      (geoRun ins s cmds).2 = [] := by
  induction cmds with
  | nil => intro s _ _ _; rfl
  | cons p rest ih =>
    intro s hts hgs hcmds
    obtain ⟨now, c⟩ := p
    have hstep : (now, c).2.isRegister = false :=
      hcmds (now, c) (List.mem_cons_self _ _)
    have hfire := fireDue_of_no_timers s now hts
    cases c with
    | update loc =>
      have hck : checkGeofences ins s loc now = (s, []) := by
        simp [checkGeofences, hgs]
      simp only [geoRun, geoStep, hfire, hck]
      simpa using ih s hts hgs (fun q hq => hcmds q (List.mem_cons_of_mem _ hq))
    | register rs => simp [GeoCmd.isRegister] at hstep
    | unregister =>
      simp only [geoRun, geoStep, hfire]
      have h1 : (unregisterGeofences s).geofenceDwellTimers = [] := rfl
      have h2 : (unregisterGeofences s).geofences = [] := rfl
      simpa using ih (unregisterGeofences s) h1 h2
        (fun q hq => hcmds q (List.mem_cons_of_mem _ hq))
    | advance =>
      simp only [geoRun, geoStep, hfire]
      simpa using ih s hts hgs (fun q hq => hcmds q (List.mem_cons_of_mem _ hq))

end Ctx

end Solomo

namespace Solomo

/-- C4: `unregisterGeofences` empties the per-region containment map, cancels
every pending dwell timer (and clears the region list and event log), and in
any continuation that contains no new registration, no dwell event is ever
emitted afterward. -/
theorem c4_unregister_clears_everything :
    (∀ (C : Type) (s : Ctx.CtxState C),
      Ctx.unregisterGeofences s
        = { s with geofences := [], lastGeofenceStates := [],
                   geofenceDwellTimers := [], geofenceEvents := [] })
    ∧ (∀ (C : Type) (ins : Ctx.GeofenceRegion C → C × C → Bool)
        (s : Ctx.CtxState C) (cmds : List (Nat × Ctx.GeoCmd C)),
      (∀ p ∈ cmds, p.2.isRegister = false) →
      ∀ e ∈ (Ctx.geoRun ins (Ctx.unregisterGeofences s) cmds).2,
        e.eventType ≠ Ctx.GeofenceEventType.dwell) := by
  constructor
  · intro C s; rfl
  · intro C ins s cmds hcmds e he
    rw [Ctx.geoRun_no_dwell_core ins cmds (Ctx.unregisterGeofences s) rfl rfl hcmds]
      at he
    exact absurd he (List.not_mem_nil e)

/-- Closed witness for C4: from a concretely dirty state, unregistering and then
feeding updates and time passage emits no dwell event. -/
theorem c4_witness :
    Ctx.unregisterGeofences
        { Ctx.freshCtx with geofences := [Ctx.demoRegion],
                            lastGeofenceStates := [("home", true)],
                            geofenceDwellTimers := [⟨"home", Ctx.demoRegion, (0, 0), 10000⟩] }
      = { (⟨[Ctx.demoRegion], [("home", true)],
            [⟨"home", Ctx.demoRegion, (0, 0), 10000⟩], [], none, none, none,
            none, none, none, none, false, true⟩ : Ctx.CtxState Int) with
          geofences := [], lastGeofenceStates := [],
          geofenceDwellTimers := [], geofenceEvents := [] }
    ∧ ∀ e ∈ (Ctx.geoRun Ctx.insCenter
        (Ctx.unregisterGeofences
          { Ctx.freshCtx with geofences := [Ctx.demoRegion],
                              lastGeofenceStates := [("home", true)],
                              geofenceDwellTimers := [⟨"home", Ctx.demoRegion, (0, 0), 10000⟩] })
        [(1, Ctx.GeoCmd.update (0, 0)), (20000, Ctx.GeoCmd.advance)]).2,
      e.eventType ≠ Ctx.GeofenceEventType.dwell := by
  refine ⟨by decide, ?_⟩
  exact c4_unregister_clears_everything.2 Int Ctx.insCenter _ _ (by decide)

/-- C10: `registerGeofences` replaces the region list wholesale and resets the
containment map and event log, but leaves the dwell-timer map unchanged; a
dwell timer scheduled before the registration therefore still fires and its
event lands in the freshly cleared log (concrete run: enter at t=1, re-register
at t=5000 clears the log, the dwell due at t=10001 is still appended). -/
theorem c10_register_keeps_dwell_timers :
    (∀ (C : Type) (s : Ctx.CtxState C) (rs : List (Ctx.GeofenceRegion C)),
      Ctx.registerGeofences s rs
        = { s with geofences := rs, lastGeofenceStates := [], geofenceEvents := [] }
      ∧ (Ctx.registerGeofences s rs).geofenceDwellTimers = s.geofenceDwellTimers)
    ∧ (Ctx.geoRun Ctx.insCenter Ctx.freshCtx
        [(0, Ctx.GeoCmd.register [Ctx.demoRegion]),
         (1, Ctx.GeoCmd.update (0, 0)),
         (5000, Ctx.GeoCmd.register [Ctx.demoRegion]),
         (20000, Ctx.GeoCmd.advance)]).1.geofenceEvents
      = [⟨Ctx.demoRegion, Ctx.GeofenceEventType.dwell, (0, 0), 10001⟩] := by
  exact ⟨fun C s rs => ⟨rfl, rfl⟩, by decide⟩

end Solomo

namespace Solomo

namespace Idx

/-- `LocationConfig` from `index.tsx`. The platform accuracy enum is modelled as
an abstract `Nat` code; no claim inspects it. -/
structure LocationConfig where
  autoWatch : Bool
  fetchInitial : Bool
  accuracy : Nat
  maxCacheAge : Nat
deriving DecidableEq

/-- `DEFAULT_CONFIG` from `index.tsx` (accuracy code 3 stands for Balanced). -/
def DEFAULT_CONFIG : LocationConfig :=
  { autoWatch := false, fetchInitial := true, accuracy := 3,
    maxCacheAge := 5 * 60 * 1000 }

/-- A caller-supplied `Partial<LocationConfig>`: each field optionally present. -/
structure ConfigOverrides where
  autoWatch : Option Bool := none
  fetchInitial : Option Bool := none
  accuracy : Option Nat := none
  maxCacheAge : Option Nat := none
deriving DecidableEq

/-- The spread `{ ...config, ...options }`: present override fields win. -/
def mergeConfig (c : LocationConfig) (o : ConfigOverrides) : LocationConfig :=
  { autoWatch := o.autoWatch.getD c.autoWatch
    fetchInitial := o.fetchInitial.getD c.fetchInitial
    accuracy := o.accuracy.getD c.accuracy
    maxCacheAge := o.maxCacheAge.getD c.maxCacheAge }

/-- React Native `AppStateStatus` (the values the handler distinguishes). -/
inductive AppStateStatus where
  | active
  | background
  | inactive
deriving DecidableEq

/-- `status.match(/inactive|background/)` on an app state value. -/
def isBackgroundish : AppStateStatus → Bool
  | .inactive => true
  | .background => true
  | .active => false

/-- Reply of `Location.requestForegroundPermissionsAsync`: either a resolved
status (granted or not) or a thrown platform error with its message. -/
inductive PermReply where
  | status (granted : Bool)
  | failure (msg : Option String)
deriving DecidableEq

/-- The provider state of `index.tsx`: React state hooks plus the refs.
`isWatching` stands for both the `isWatching` state and `isWatchingRef`, which
the source always updates together. `activeSubs` instruments the set of live
platform watch subscriptions (handles created by `watchPositionAsync` and not
yet `remove()`d) and `nextSubId` supplies fresh handles; `subscription` is the
`locationSubscription.current` ref, which can dangle on a handle that was
already removed. `retryTimeoutRef` is never set in the source and is omitted.
`Loc` is the abstract type of platform `LocationObject` values, which the
provider stores but never inspects. -/
structure IdxState (Loc : Type) where
  config : LocationConfig
  location : Option Loc
  error : Option LocationError
  lastUpdated : Option Nat
  hasPermission : Bool
  isWatching : Bool
  subscription : Option Nat
  activeSubs : List Nat
  nextSubId : Nat
  lastLocationRef : Option Loc
  watchIntent : Bool
  appState : AppStateStatus
  mounted : Bool
deriving DecidableEq

/-- `handleError` from `index.tsx`: build a `LocationError` from the caught
error's message (with the fallback text) and store it in the error slot. -/
def handleError {Loc : Type} (s : IdxState Loc) (msg : Option String)
    (t : LocationErrorType) : IdxState Loc :=
  { s with error := some ⟨t, msg.getD "An unknown error occurred"⟩ }

/-- `requestPermission` from `index.tsx` (lines 167-187). Note the source calls
`handleError` on denial and then runs `setError(null)` unconditionally, so on a
clean denial the recorded error is immediately cleared. -/
def requestPermission {Loc : Type} (s : IdxState Loc) (reply : PermReply) :
    IdxState Loc × Bool :=
  if !s.mounted then (s, false)
  else
    match reply with
    | .status granted =>
      let s1 : IdxState Loc := { s with hasPermission := granted }
      let s2 : IdxState Loc :=
        if !granted then
          handleError s1 (some "Location permission was denied") .permission_denied
        else s1
      ({ s2 with error := none }, granted)
    | .failure msg => (handleError s msg .permission_denied, false)

/-- The cache probe at the top of `getCurrentLocation`:
`lastLocationRef.current && lastUpdated` (JS truthiness, so a zero timestamp
reads as absent) and `Date.now() - lastUpdated < maxCacheAge` (JS number
subtraction, hence the `Int` cast). Returns the cached sample and its
timestamp on a hit. -/
def cacheLookup {Loc : Type} (s : IdxState Loc) (maxAge : Nat) (now : Nat) :
    Option (Loc × Nat) :=
  match s.lastLocationRef, s.lastUpdated with
  | some l, some t =>
    if t ≠ 0 ∧ (now : Int) - (t : Int) < (maxAge : Int) then some (l, t) else none
  | _, _ => none

/-- The `LocationData` result record (the GPS-accuracy passthrough field is
omitted; no claim reads it). -/
structure LocationData (Loc : Type) where
  granted : Bool
  location : Option Loc
  timestamp : Option Nat := none
  fromCache : Option Bool := none
deriving DecidableEq

/-- Result of one `getCurrentLocation` call: the post-call provider state, the
returned `LocationData`, and whether `Location.getCurrentPositionAsync` was
invoked (instrumentation for the no-fetch-on-cache-hit property). -/
structure CallResult (Loc : Type) where
  state : IdxState Loc
  data : LocationData Loc
  fetchPerformed : Bool
deriving DecidableEq

/-- The `if (!hasPermission) { const granted = await requestPermission(); ... }`
prologue shared by `getCurrentLocation` and `startWatching`: returns the state
after an eventual permission request together with the effective grant. -/
def ensurePermission {Loc : Type} (s : IdxState Loc) (permReply : PermReply) :
    IdxState Loc × Bool :=
  if !s.hasPermission then requestPermission s permReply else (s, true)

/-- `getCurrentLocation` from `index.tsx` (lines 191-240). `permReply` is the
platform's answer if a permission request turns out to be needed, and
`fetchReply` the outcome of `getCurrentPositionAsync` (`.error` carries the
thrown error's message) if the fetch is reached. -/
def getCurrentLocation {Loc : Type} (s : IdxState Loc) (opts : ConfigOverrides)
    (now : Nat) (permReply : PermReply)
    (fetchReply : Except (Option String) Loc) : CallResult Loc :=
  if !s.mounted then ⟨s, ⟨false, none, none, none⟩, false⟩
  else
    match cacheLookup s (mergeConfig s.config opts).maxCacheAge now with
    | some (l, t) => ⟨s, ⟨true, some l, some t, some true⟩, false⟩
    | none =>
      let pr := ensurePermission s permReply
      if !pr.2 then ⟨pr.1, ⟨false, none, none, none⟩, false⟩
      else
        let s2 : IdxState Loc := { pr.1 with error := none }
        match fetchReply with
        | .ok loc =>
          ⟨if s2.mounted then
              { s2 with location := some loc, lastUpdated := some now,
                        lastLocationRef := some loc }
            else s2,
           ⟨true, some loc, some now, some false⟩, true⟩
        | .error msg =>
          ⟨handleError s2 msg .position_unavailable, ⟨true, none, none, none⟩, true⟩

/-- `if (locationSubscription.current) { locationSubscription.current.remove(); }`:
the platform-side effect on the set of live subscriptions (the ref itself is
not nulled by this statement in the source). -/
def removeSub (subscription : Option Nat) (active : List Nat) : List Nat :=
  match subscription with
  | some h => active.erase h
  | none => active

/-- `startWatching` from `index.tsx` (lines 244-285). `watchReply` is the
outcome of `Location.watchPositionAsync`. On success a fresh subscription
handle is created; any previous subscription is `remove()`d first (the ref is
only overwritten on success, as in the source). -/
def startWatching {Loc : Type} (s : IdxState Loc) (opts : ConfigOverrides)
    (permReply : PermReply) (watchReply : Except (Option String) Unit) :
    IdxState Loc :=
  if !s.mounted || s.isWatching then s
  else
    let pr := ensurePermission s permReply
    if !pr.2 then pr.1
    else
      let s2 : IdxState Loc :=
        { pr.1 with activeSubs := removeSub pr.1.subscription pr.1.activeSubs }
      let s3 : IdxState Loc :=
        { s2 with isWatching := true, watchIntent := true, error := none }
      match watchReply with
      | .ok _ =>
        { s3 with subscription := some s3.nextSubId
                  activeSubs := s3.activeSubs ++ [s3.nextSubId]
                  nextSubId := s3.nextSubId + 1 }
      | .error msg =>
        { handleError s3 msg .position_unavailable with
            isWatching := false, watchIntent := false }

/-- `stopWatching` from `index.tsx` (lines 289-297): remove the current
subscription if any, null the ref, drop the watching flags and the intent. -/
def stopWatching {Loc : Type} (s : IdxState Loc) : IdxState Loc :=
  let s1 : IdxState Loc :=
    match s.subscription with
    | some h => { s with activeSubs := s.activeSubs.erase h, subscription := none }
    | none => s
  { s1 with isWatching := false, watchIntent := false }

/-- `updateConfig` from `index.tsx` (lines 301-309): merge the new fields into
the config, and if currently watching restart the watch with the new options. -/
def updateConfig {Loc : Type} (s : IdxState Loc) (newCfg : ConfigOverrides)
    (permReply : PermReply) (watchReply : Except (Option String) Unit) :
    IdxState Loc :=
  let s1 : IdxState Loc := { s with config := mergeConfig s.config newCfg }
  if s1.isWatching then startWatching (stopWatching s1) newCfg permReply watchReply
  else s1

/-- `handleAppStateChange` from `index.tsx` (lines 313-331). On
background→active, resume watching only when permission is held, the watch is
stopped and the intent flag is set; on active→background, if watching, set the
intent flag and stop (the source's `stopWatching` then clears that flag
again). -/
def handleAppStateChange {Loc : Type} (s : IdxState Loc) (next : AppStateStatus)
    (permReply : PermReply) (watchReply : Except (Option String) Unit) :
    IdxState Loc :=
  if !s.mounted then s
  else
    let s1 : IdxState Loc :=
      if isBackgroundish s.appState && (next == AppStateStatus.active) then
        if s.hasPermission && !s.isWatching && s.watchIntent then
          startWatching s {} permReply watchReply
        else s
      else if (s.appState == AppStateStatus.active) && isBackgroundish next then
        if s.isWatching then stopWatching { s with watchIntent := true } else s
      else s
    { s1 with appState := next }

/-- The cleanup returned by the mount `useEffect` (lines 413-425): flag
unmounted, remove and null the subscription, drop the watching flag (the
intent ref is left as is). -/
def teardown {Loc : Type} (s : IdxState Loc) : IdxState Loc :=
  let s1 : IdxState Loc := { s with mounted := false }
  let s2 : IdxState Loc :=
    match s1.subscription with
    | some h => { s1 with activeSubs := s1.activeSubs.erase h, subscription := none }
    | none => s1
  { s2 with isWatching := false }

/-- The `useState` initial values at mount. -/
def initState {Loc : Type} (cfg : LocationConfig) : IdxState Loc :=
  { config := cfg, location := none, error := none, lastUpdated := none,
    hasPermission := false, isWatching := false, subscription := none,
    activeSubs := [], nextSubId := 0, lastLocationRef := none,
    watchIntent := false, appState := .active, mounted := true }

/-- The inline watch block of the mount effect (lines 368-398): remove any
previous subscription, set the watching flags, and either store the fresh
subscription handle or record the fixed failure message and reset the flags. -/
def inlineWatch {Loc : Type} (s2 : IdxState Loc)
    (watchReply : Except (Option String) Unit) : IdxState Loc :=
  let s3 : IdxState Loc :=
    { s2 with activeSubs := removeSub s2.subscription s2.activeSubs }
  let s4 : IdxState Loc :=
    { s3 with isWatching := true, watchIntent := true, error := none }
  match watchReply with
  | .ok _ =>
    { s4 with subscription := some s4.nextSubId
              activeSubs := s4.activeSubs ++ [s4.nextSubId]
              nextSubId := s4.nextSubId + 1 }
  | .error _ =>
    { s4 with error := some ⟨.position_unavailable, "Failed to start watching location"⟩,
              isWatching := false, watchIntent := false }

/-- The async body of the mount `useEffect` (its async init function, lines
339-409): query permission, optionally fetch an initial position, and when
`autoWatch` is set start the inline watch (same subscription handling as
`startWatching`, with the fixed error messages of the source). -/
def initialSetup {Loc : Type} (s : IdxState Loc) (now : Nat)
    (permStatus : Except (Option String) Bool)
    (fetchReply : Except (Option String) Loc)
    (watchReply : Except (Option String) Unit) : IdxState Loc :=
  match permStatus with
  | .error _ => { s with error := some ⟨.permission_denied, "Permission request failed"⟩ }
  | .ok granted =>
    let s1 : IdxState Loc := { s with hasPermission := granted }
    if granted && s1.config.fetchInitial then
      let s2 : IdxState Loc :=
        match fetchReply with
        | .ok loc =>
          if s1.mounted then
            { s1 with location := some loc, lastUpdated := some now,
                      lastLocationRef := some loc }
          else s1
        | .error _ =>
          { s1 with error := some ⟨.position_unavailable, "Failed to get current location"⟩ }
      if !s2.config.autoWatch then s2
      else inlineWatch s2 watchReply
    else s1

/-- States reachable by any interleaving of the provider's operations from a
fresh mount. -/
inductive Reachable {Loc : Type} : IdxState Loc → Prop where
  | init (cfg : LocationConfig) : Reachable (initState cfg)
  | setup {s : IdxState Loc} (now ps fr wr) :
      Reachable s → Reachable (initialSetup s now ps fr wr)
  | reqPerm {s : IdxState Loc} (r) :
      Reachable s → Reachable (requestPermission s r).1
  | getLoc {s : IdxState Loc} (o now pr fr) :
      Reachable s → Reachable (getCurrentLocation s o now pr fr).state
  | startW {s : IdxState Loc} (o pr wr) :
      Reachable s → Reachable (startWatching s o pr wr)
  | stopW {s : IdxState Loc} :
      Reachable s → Reachable (stopWatching s)
  | appChange {s : IdxState Loc} (n pr wr) :
      Reachable s → Reachable (handleAppStateChange s n pr wr)
  | updateCfg {s : IdxState Loc} (c pr wr) :
      Reachable s → Reachable (updateConfig s c pr wr)
  | unmountStep {s : IdxState Loc} :
      Reachable s → Reachable (teardown s)

/-- Subscription invariant: the live platform subscriptions are at most the one
the ref points to, and a live subscription implies the watching flag. -/
def SubsInv {Loc : Type} (s : IdxState Loc) : Prop :=
  (s.activeSubs = [] ∨ ∃ h, s.activeSubs = [h] ∧ s.subscription = some h)
  ∧ (s.activeSubs ≠ [] → s.isWatching = true)

end Idx

end Solomo

namespace Solomo

namespace Idx

/-- The three subscription-related fields, bundled for frame reasoning. -/
def subsOf {Loc : Type} (s : IdxState Loc) : List Nat × Option Nat × Bool :=
  (s.activeSubs, s.subscription, s.isWatching)

lemma subsInv_of_subsOf_eq {Loc : Type} {s s' : IdxState Loc}
    (h : subsOf s' = subsOf s) (hs : SubsInv s) : SubsInv s' := by
  simp only [subsOf, Prod.mk.injEq] at h
  obtain ⟨ha, hb, hc⟩ := h
  unfold SubsInv at *
  rw [ha, hb, hc]
  exact hs

lemma subsOf_requestPermission {Loc : Type} (s : IdxState Loc) (r : PermReply) :
    subsOf (requestPermission s r).1 = subsOf s := by
  unfold requestPermission
  split
  · rfl
  · cases r with
    | status granted =>
      by_cases hg : granted <;> simp [hg, handleError, subsOf]
    | failure msg => rfl

lemma subsOf_ensurePermission {Loc : Type} (s : IdxState Loc) (r : PermReply) :
    subsOf (ensurePermission s r).1 = subsOf s := by
  unfold ensurePermission
  split
  · exact subsOf_requestPermission s r
  · rfl

lemma subsOf_getCurrentLocation {Loc : Type} (s : IdxState Loc)
    (o : ConfigOverrides) (now : Nat) (pr : PermReply)
    (fr : Except (Option String) Loc) :
    subsOf (getCurrentLocation s o now pr fr).state = subsOf s := by
  unfold getCurrentLocation
  split
  · rfl
  · split
    · rfl
    · generalize hE : ensurePermission s pr = p
      have hps : subsOf p.1 = subsOf s := hE ▸ subsOf_ensurePermission s pr
      dsimp only
      split
      · exact hps
      · split
        · split
          · exact hps
          · exact hps
        · exact hps

end Idx

end Solomo

namespace Solomo

namespace Idx

lemma subsInv_requestPermission {Loc : Type} {s : IdxState Loc} (h : SubsInv s)
    (r : PermReply) : SubsInv (requestPermission s r).1 :=
  subsInv_of_subsOf_eq (subsOf_requestPermission s r) h

lemma subsInv_getCurrentLocation {Loc : Type} {s : IdxState Loc} (h : SubsInv s)
    (o : ConfigOverrides) (now : Nat) (pr : PermReply)
    (fr : Except (Option String) Loc) :
    SubsInv (getCurrentLocation s o now pr fr).state :=
  subsInv_of_subsOf_eq (subsOf_getCurrentLocation s o now pr fr) h

lemma erase_self_of_subsInv {Loc : Type} {s : IdxState Loc} (h : SubsInv s)
    {hh : Nat} (hsub : s.subscription = some hh) : s.activeSubs.erase hh = [] := by
  rcases h.1 with hempty | ⟨h0, hact, hsub0⟩
  · rw [hempty]; rfl
  · rw [hact]
    have : h0 = hh := by
      have := hsub0.symm.trans hsub
      exact Option.some.injEq .. ▸ this
    rw [this]
    simp

lemma removeSub_eq_nil {Loc : Type} {s : IdxState Loc} (h : SubsInv s) :
    removeSub s.subscription s.activeSubs = [] := by
  unfold removeSub
  cases hsub : s.subscription with
  | some hh => exact erase_self_of_subsInv h hsub
  | none =>
    rcases h.1 with h0 | ⟨h0, hact, hsub0⟩
    · exact h0
    · exact absurd (hsub0.symm.trans hsub) (Option.noConfusion)

lemma subsInv_startWatching {Loc : Type} {s : IdxState Loc} (h : SubsInv s)
    (o : ConfigOverrides) (pr : PermReply)
    (wr : Except (Option String) Unit) : SubsInv (startWatching s o pr wr) := by
  unfold startWatching
  split
  · exact h
  · generalize hE : ensurePermission s pr = p
    have hp1 : SubsInv p.1 := subsInv_of_subsOf_eq (hE ▸ subsOf_ensurePermission s pr) h
    dsimp only
    split
    · exact hp1
    · have hnil := removeSub_eq_nil hp1
      split
      · refine ⟨Or.inr ⟨p.1.nextSubId, ?_, rfl⟩, fun _ => rfl⟩
        show removeSub p.1.subscription p.1.activeSubs ++ [p.1.nextSubId]
          = [p.1.nextSubId]
        rw [hnil]
        rfl
      · simp only [handleError]
        exact ⟨Or.inl hnil, fun hne => absurd hnil hne⟩

lemma stopWatching_releases {Loc : Type} {s : IdxState Loc} (h : SubsInv s) :
    (stopWatching s).activeSubs = [] ∧ (stopWatching s).subscription = none := by
  unfold stopWatching
  cases hsub : s.subscription with
  | some hh =>
    exact ⟨erase_self_of_subsInv h hsub, rfl⟩
  | none =>
    rcases h.1 with h0 | ⟨h0, hact, hsub0⟩
    · exact ⟨h0, hsub⟩
    · exact absurd (hsub0.symm.trans hsub) (Option.noConfusion)

lemma subsInv_stopWatching {Loc : Type} {s : IdxState Loc} (h : SubsInv s) :
    SubsInv (stopWatching s) := by
  obtain ⟨ha, hb⟩ := stopWatching_releases h
  exact ⟨Or.inl ha, fun hne => absurd ha hne⟩

lemma subsInv_handleAppStateChange {Loc : Type} {s : IdxState Loc} (h : SubsInv s)
    (n : AppStateStatus) (pr : PermReply) (wr : Except (Option String) Unit) :
    SubsInv (handleAppStateChange s n pr wr) := by
  unfold handleAppStateChange
  split
  · exact h
  · split
    · split
      · exact subsInv_startWatching h {} pr wr
      · exact h
    · split
      · split
        · have h1 : SubsInv ({ s with watchIntent := true } : IdxState Loc) := h
          exact subsInv_stopWatching h1
        · exact h
      · exact h

lemma subsInv_updateConfig {Loc : Type} {s : IdxState Loc} (h : SubsInv s)
    (c : ConfigOverrides) (pr : PermReply) (wr : Except (Option String) Unit) :
    SubsInv (updateConfig s c pr wr) := by
  unfold updateConfig
  dsimp only
  split
  · have h1 : SubsInv ({ s with config := mergeConfig s.config c } : IdxState Loc) := h
    exact subsInv_startWatching (subsInv_stopWatching h1) c pr wr
  · exact h

lemma subsInv_teardown {Loc : Type} {s : IdxState Loc} (h : SubsInv s) :
    SubsInv (teardown s) := by
  unfold teardown
  dsimp only
  cases hsub : s.subscription with
  | some hh =>
    have he : s.activeSubs.erase hh = [] := erase_self_of_subsInv h hsub
    refine ⟨Or.inl (by simpa using he), fun hne => absurd (by simpa using he) hne⟩
  | none =>
    rcases h.1 with h0 | ⟨h0, hact, hsub0⟩
    · exact ⟨Or.inl h0, fun hne => absurd h0 hne⟩
    · exact absurd (hsub0.symm.trans hsub) (Option.noConfusion)

lemma subsInv_inlineWatch {Loc : Type} {s2 : IdxState Loc} (h : SubsInv s2)
    (wr : Except (Option String) Unit) : SubsInv (inlineWatch s2 wr) := by
  unfold inlineWatch
  dsimp only
  have hnil := removeSub_eq_nil h
  split
  · refine ⟨Or.inr ⟨s2.nextSubId, ?_, rfl⟩, fun _ => rfl⟩
    show removeSub s2.subscription s2.activeSubs ++ [s2.nextSubId] = [s2.nextSubId]
    rw [hnil]
    rfl
  · exact ⟨Or.inl hnil, fun hne => absurd hnil hne⟩

lemma subsInv_initialSetup {Loc : Type} {s : IdxState Loc} (h : SubsInv s)
    (now : Nat) (ps : Except (Option String) Bool)
    (fr : Except (Option String) Loc) (wr : Except (Option String) Unit) :
    SubsInv (initialSetup s now ps fr wr) := by
  unfold initialSetup
  cases ps with
  | error m => exact h
  | ok granted =>
    dsimp only
    split
    · cases fr with
      | ok loc =>
        dsimp only
        by_cases hm : ({ s with hasPermission := granted } : IdxState Loc).mounted = true
        · rw [if_pos hm]
          split
          · exact h
          · have h2 : SubsInv ({ s with
                hasPermission := granted
                location := some loc
                lastUpdated := some now
                lastLocationRef := some loc } : IdxState Loc) := h
            exact subsInv_inlineWatch h2 wr
        · rw [if_neg hm]
          split
          · exact h
          · have h2 : SubsInv ({ s with hasPermission := granted } : IdxState Loc) := h
            exact subsInv_inlineWatch h2 wr
      | error m =>
        dsimp only
        split
        · exact h
        · have h2 : SubsInv ({ s with
              hasPermission := granted
              error := some ⟨LocationErrorType.position_unavailable,
                "Failed to get current location"⟩ } : IdxState Loc) := h
          exact subsInv_inlineWatch h2 wr
    · exact h

end Idx

end Solomo

namespace Solomo

namespace Idx

lemma reachable_subsInv {Loc : Type} {s : IdxState Loc} (h : Reachable s) :
    SubsInv s := by
  induction h with
  | init cfg => exact ⟨Or.inl rfl, fun hne => absurd rfl hne⟩
  | setup now ps fr wr _ ih => exact subsInv_initialSetup ih now ps fr wr
  | reqPerm r _ ih => exact subsInv_requestPermission ih r
  | getLoc o now pr fr _ ih => exact subsInv_getCurrentLocation ih o now pr fr
  | startW o pr wr _ ih => exact subsInv_startWatching ih o pr wr
  | stopW _ ih => exact subsInv_stopWatching ih
  | appChange n pr wr _ ih => exact subsInv_handleAppStateChange ih n pr wr
  | updateCfg c pr wr _ ih => exact subsInv_updateConfig ih c pr wr
  | unmountStep _ ih => exact subsInv_teardown ih

end Idx

end Solomo

namespace Solomo

/-- C5: in every reachable provider state at most one platform watch
subscription is live; calling `startWatching` while already watching returns
the state unchanged (a no-op); and `stopWatching` always releases the
underlying subscription (afterwards the ref is null and no live subscription
remains). -/
theorem c5_single_subscription :
    (∀ (Loc : Type) (s : Idx.IdxState Loc), Idx.Reachable s →
      s.activeSubs.length ≤ 1)
    ∧ (∀ (Loc : Type) (s : Idx.IdxState Loc) (o : Idx.ConfigOverrides)
        (pr : Idx.PermReply) (wr : Except (Option String) Unit),
      s.isWatching = true → Idx.startWatching s o pr wr = s)
    ∧ (∀ (Loc : Type) (s : Idx.IdxState Loc), Idx.Reachable s →
      (Idx.stopWatching s).subscription = none
      ∧ (Idx.stopWatching s).activeSubs = []) := by
  refine ⟨?_, ?_, ?_⟩
  · intro Loc s hr
    rcases (Idx.reachable_subsInv hr).1 with h0 | ⟨h0, hact, -⟩
    · simp [h0]
    · simp [hact]
  · intro Loc s o pr wr hw
    unfold Idx.startWatching
    rw [if_pos]
    simp [hw]
  · intro Loc s hr
    obtain ⟨ha, hb⟩ := Idx.stopWatching_releases (Idx.reachable_subsInv hr)
    exact ⟨hb, ha⟩

/-- Closed witness for C5 at concrete inputs: the freshly mounted provider
state is reachable and satisfies the three conclusions. -/
theorem c5_witness :
    ((Idx.initState Idx.DEFAULT_CONFIG : Idx.IdxState Nat).activeSubs.length ≤ 1)
    ∧ (Idx.startWatching
        ({ Idx.initState Idx.DEFAULT_CONFIG with isWatching := true } : Idx.IdxState Nat)
        {} (Idx.PermReply.status true) (Except.ok ())
       = { Idx.initState Idx.DEFAULT_CONFIG with isWatching := true })
    ∧ ((Idx.stopWatching (Idx.initState Idx.DEFAULT_CONFIG : Idx.IdxState Nat)).subscription = none
      ∧ (Idx.stopWatching (Idx.initState Idx.DEFAULT_CONFIG : Idx.IdxState Nat)).activeSubs = []) :=
  ⟨c5_single_subscription.1 Nat _ (Idx.Reachable.init _),
   c5_single_subscription.2.1 Nat _ {} (Idx.PermReply.status true) (Except.ok ()) rfl,
   c5_single_subscription.2.2 Nat _ (Idx.Reachable.init _)⟩

end Solomo

namespace Solomo

namespace Idx

/-- The cache-related fields, bundled for frame reasoning. -/
def cacheFieldsOf {Loc : Type} (s : IdxState Loc) :
    Option Loc × Option Nat × Option Loc :=
  (s.location, s.lastUpdated, s.lastLocationRef)

lemma cacheFieldsOf_requestPermission {Loc : Type} (s : IdxState Loc)
    (r : PermReply) : cacheFieldsOf (requestPermission s r).1 = cacheFieldsOf s := by
  unfold requestPermission
  split
  · rfl
  · cases r with
    | status granted =>
      by_cases hg : granted <;> simp [hg, handleError, cacheFieldsOf]
    | failure msg => rfl

end Idx

end Solomo

namespace Solomo

/-- Concrete mounted state: permission held, sample 42 cached at t=1000. -/
def exCached : Idx.IdxState Nat :=
  { (Idx.initState Idx.DEFAULT_CONFIG : Idx.IdxState Nat) with
      hasPermission := true
      location := some 42
      lastLocationRef := some 42
      lastUpdated := some 1000 }

/-- Concrete mounted state: permission not held, sample 5 cached at t=1000. -/
def exStaleDenied : Idx.IdxState Nat :=
  { (Idx.initState Idx.DEFAULT_CONFIG : Idx.IdxState Nat) with
      location := some 5
      lastLocationRef := some 5
      lastUpdated := some 1000 }

/-- Concrete backgrounded state with permission and watch intent. -/
def exBackgrounded : Idx.IdxState Nat :=
  { (Idx.initState Idx.DEFAULT_CONFIG : Idx.IdxState Nat) with
      hasPermission := true
      watchIntent := true
      appState := Idx.AppStateStatus.background }

/-- Concrete foregrounded watching state with one live subscription. -/
def exWatching : Idx.IdxState Nat :=
  { (Idx.initState Idx.DEFAULT_CONFIG : Idx.IdxState Nat) with
      isWatching := true
      subscription := some 0
      activeSubs := [0] }

/-- C9: on a background/inactive→active transition (in a mounted provider),
watching is resumed iff permission is held, the watch is currently stopped and
the watch-intent flag is set; on an active→background/inactive transition the
platform subscription is released (no live subscription remains). -/
theorem c9_appstate_pause_resume :
    ∀ (Loc : Type) (s : Idx.IdxState Loc) (pr : Idx.PermReply),
      s.mounted = true →
      ((Idx.isBackgroundish s.appState = true →
        ((Idx.handleAppStateChange s Idx.AppStateStatus.active pr
            (Except.ok ())).isWatching = true ∧ s.isWatching = false
          ↔ s.hasPermission = true ∧ s.isWatching = false ∧ s.watchIntent = true))
      ∧ (∀ next : Idx.AppStateStatus, Idx.SubsInv s →
          s.appState = Idx.AppStateStatus.active →
          Idx.isBackgroundish next = true →
          (Idx.handleAppStateChange s next pr (Except.ok ())).activeSubs = [])) := by
  intro Loc s pr hm
  constructor
  · intro hbg
    cases hp : s.hasPermission <;> cases hw : s.isWatching <;>
      cases hi : s.watchIntent <;>
      simp [Idx.handleAppStateChange, Idx.startWatching, Idx.ensurePermission,
        hm, hbg, hp, hw, hi]
  · intro next hinv hact hbgn
    have hnotbg : Idx.isBackgroundish s.appState = false := by
      rw [hact]
      rfl
    cases hw : s.isWatching with
    | true =>
      have step : Idx.handleAppStateChange s next pr (Except.ok ())
          = { Idx.stopWatching ({ s with watchIntent := true } : Idx.IdxState Loc) with
                appState := next } := by
        unfold Idx.handleAppStateChange
        rw [if_neg (by rw [hm]; simp)]
        rw [if_neg (by rw [hnotbg]; simp)]
        rw [if_pos (by rw [hact, hbgn]; rfl)]
        rw [if_pos hw]
      rw [step]
      have h1 : Idx.SubsInv ({ s with watchIntent := true } : Idx.IdxState Loc) :=
        ⟨hinv.1, fun hne => hinv.2 hne⟩
      exact (Idx.stopWatching_releases h1).1
    | false =>
      have hsubs : s.activeSubs = [] := by
        by_contra hne
        have := hinv.2 hne
        rw [hw] at this
        exact Bool.noConfusion this
      simp [Idx.handleAppStateChange, hm, hact, hbgn, hw, Idx.isBackgroundish, hsubs]

/-- Closed witness for C9: a concrete backgrounded, permitted, intent-holding
state resumes on foregrounding, and a concrete watching state is released on
backgrounding. -/
theorem c9_witness :
    (((Idx.handleAppStateChange exBackgrounded Idx.AppStateStatus.active
        (Idx.PermReply.status true) (Except.ok ())).isWatching = true
      ∧ exBackgrounded.isWatching = false)
      ↔ (true = true ∧ false = false ∧ true = true))
    ∧ (Idx.handleAppStateChange exWatching Idx.AppStateStatus.background
        (Idx.PermReply.status true) (Except.ok ())).activeSubs = [] := by
  constructor
  · exact (c9_appstate_pause_resume Nat exBackgrounded
      (Idx.PermReply.status true) rfl).1 rfl
  · exact (c9_appstate_pause_resume Nat exWatching
      (Idx.PermReply.status true) rfl).2 Idx.AppStateStatus.background
      ⟨Or.inr ⟨0, rfl, rfl⟩, fun _ => rfl⟩ rfl rfl

/-- C2 (amended): in a mounted provider, a call to `getCurrentLocation` whose
cache probe hits (a cached sample with a truthy timestamp younger than the
merged `maxCacheAge`) returns the cached sample with `fromCache = true`,
changes nothing, and performs no platform fetch; and a mounted call whose
cache probe misses performs a platform fetch provided permission is already
granted or the permission request resolves as granted. -/
theorem c2_cache_contract :
    (∀ (Loc : Type) (s : Idx.IdxState Loc) (opts : Idx.ConfigOverrides)
        (now : Nat) (pr : Idx.PermReply) (fr : Except (Option String) Loc)
        (l : Loc) (t : Nat),
      s.mounted = true →
      Idx.cacheLookup s (Idx.mergeConfig s.config opts).maxCacheAge now = some (l, t) →
      Idx.getCurrentLocation s opts now pr fr
        = ⟨s, ⟨true, some l, some t, some true⟩, false⟩)
    ∧ (∀ (Loc : Type) (s : Idx.IdxState Loc) (opts : Idx.ConfigOverrides)
        (now : Nat) (pr : Idx.PermReply) (fr : Except (Option String) Loc),
      s.mounted = true →
      Idx.cacheLookup s (Idx.mergeConfig s.config opts).maxCacheAge now = none →
      (s.hasPermission = true ∨ pr = Idx.PermReply.status true) →
      (Idx.getCurrentLocation s opts now pr fr).fetchPerformed = true) := by
  constructor
  · intro Loc s opts now pr fr l t hm hcache
    unfold Idx.getCurrentLocation
    simp [hm, hcache]
  · intro Loc s opts now pr fr hm hcache hperm
    unfold Idx.getCurrentLocation
    simp only [hm, Bool.not_true, Bool.false_eq_true, if_false, hcache]
    cases hp : s.hasPermission with
    | true =>
      simp only [Idx.ensurePermission, hp, Bool.not_true, Bool.false_eq_true, if_false]
      cases fr <;> simp
    | false =>
      rcases hperm with hperm | hperm
      · rw [hp] at hperm; exact Bool.noConfusion hperm
      · subst hperm
        simp only [Idx.ensurePermission, hp, Bool.not_false, if_true,
          Idx.requestPermission, hm, Bool.not_true, Bool.false_eq_true, if_false]
        cases fr <;> simp

/-- Witness for C2: the concrete state `exCached` returns its 1-second-old
sample from cache without fetching, and the same state queried far in the
future (stale cache) performs a fetch. -/
theorem c2_witness :
    Idx.getCurrentLocation exCached {} 2000 (Idx.PermReply.status true) (Except.ok 7)
      = ⟨exCached, ⟨true, some 42, some 1000, some true⟩, false⟩
    ∧ (Idx.getCurrentLocation exCached {} 10000000 (Idx.PermReply.status true)
        (Except.ok 7)).fetchPerformed = true := by
  constructor
  · exact c2_cache_contract.1 Nat exCached {} 2000 (Idx.PermReply.status true)
      (Except.ok 7) 42 1000 rfl (by decide)
  · exact c2_cache_contract.2 Nat exCached {} 10000000 (Idx.PermReply.status true)
      (Except.ok 7) rfl (by decide) (Or.inl rfl)

/-- Counterexample for C2 as frozen: a mounted call with a stale cached sample
(age far above `maxCacheAge`) performs no platform fetch when permission is not
held and the permission request is denied, contradicting the claim that every
call without a fresh cached sample performs a fetch. -/
theorem c2_counterexample :
    Idx.cacheLookup exStaleDenied
        (Idx.mergeConfig Idx.DEFAULT_CONFIG {}).maxCacheAge 10000000 = none
    ∧ exStaleDenied.mounted = true
    ∧ (Idx.getCurrentLocation exStaleDenied {} 10000000
        (Idx.PermReply.status false) (Except.ok 7)).fetchPerformed = false := by
  refine ⟨by decide, rfl, by decide⟩

/-- C6: a mounted `getCurrentLocation` call that reaches the platform fetch
(cache miss, permission held or freshly granted) and whose fetch fails records
a `position_unavailable` error in the error slot, returns
`granted = true, location = null`, and leaves the cached sample, its
timestamp and the current location untouched. -/
theorem c6_fetch_failure_preserves_cache :
    ∀ (Loc : Type) (s : Idx.IdxState Loc) (opts : Idx.ConfigOverrides)
      (now : Nat) (pr : Idx.PermReply) (m : Option String),
      s.mounted = true →
      Idx.cacheLookup s (Idx.mergeConfig s.config opts).maxCacheAge now = none →
      (s.hasPermission = true ∨ pr = Idx.PermReply.status true) →
      (Idx.getCurrentLocation s opts now pr (Except.error m)).data
          = ⟨true, none, none, none⟩
      ∧ (Idx.getCurrentLocation s opts now pr (Except.error m)).state.error
          = some ⟨LocationErrorType.position_unavailable,
              m.getD "An unknown error occurred"⟩
      ∧ (Idx.getCurrentLocation s opts now pr (Except.error m)).state.location
          = s.location
      ∧ (Idx.getCurrentLocation s opts now pr (Except.error m)).state.lastUpdated
          = s.lastUpdated
      ∧ (Idx.getCurrentLocation s opts now pr (Except.error m)).state.lastLocationRef
          = s.lastLocationRef
      ∧ (Idx.getCurrentLocation s opts now pr (Except.error m)).fetchPerformed
          = true := by
  intro Loc s opts now pr m hm hcache hperm
  unfold Idx.getCurrentLocation
  simp only [hm, Bool.not_true, Bool.false_eq_true, if_false, hcache]
  cases hp : s.hasPermission with
  | true =>
    simp [Idx.ensurePermission, hp, Idx.handleError]
  | false =>
    rcases hperm with hperm | hperm
    · rw [hp] at hperm; exact Bool.noConfusion hperm
    · subst hperm
      simp [Idx.ensurePermission, hp, Idx.requestPermission, hm, Idx.handleError]

/-- Witness for C6 at a concrete input: stale cache, permission held, failing
fetch with message "gps off". -/
theorem c6_witness :
    (Idx.getCurrentLocation exCached {} 10000000 (Idx.PermReply.status true)
        (Except.error (some "gps off"))).state.error
      = some ⟨LocationErrorType.position_unavailable, "gps off"⟩
    ∧ (Idx.getCurrentLocation exCached {} 10000000 (Idx.PermReply.status true)
        (Except.error (some "gps off"))).state.lastLocationRef = some 42 := by
  have h := c6_fetch_failure_preserves_cache Nat exCached {} 10000000
    (Idx.PermReply.status true) (some "gps off") rfl (by decide) (Or.inl rfl)
  exact ⟨h.2.1, h.2.2.2.2.1⟩

/-- Concrete provider state for exercising `requestPermission`: permission was
granted earlier and a stale error sits in the error slot. -/
def ex7 : Idx.IdxState Nat :=
  { (Idx.initState Idx.DEFAULT_CONFIG : Idx.IdxState Nat) with
      hasPermission := true
      error := some ⟨LocationErrorType.timeout, "previous failure"⟩ }

/-- C7 (code bug exhibit): on a clean platform denial, `requestPermission` in
`index.tsx` returns `false` and flips `hasPermission`, but the error slot ends
up `null`: the `handleError(...)` on denial is immediately overwritten by the
unconditional `setError(null)` that follows it. (The third conjunct shows a
re-grant also clears a pre-existing error, so the call is not state-preserving
either.) -/
theorem c7_denial_leaves_no_error :
    (Idx.requestPermission ex7 (Idx.PermReply.status false)).2 = false
    ∧ (Idx.requestPermission ex7 (Idx.PermReply.status false)).1
        = { ex7 with hasPermission := false, error := none }
    ∧ (Idx.requestPermission ex7 (Idx.PermReply.status true)).1
        = { ex7 with error := none } := by
  refine ⟨rfl, by decide, by decide⟩

end Solomo

namespace Solomo

namespace Ctx

/-- The guarded application of a completed fetch (`Context.tsx` lines 360-366):
the state hooks and cache refs are written only when the provider is still
mounted when the `await` resolves. -/
def applyFetchSuccess {C : Type} (s : CtxState C) (loc : C × C)
    (addr : Option LocationAddress) (now : Nat) : CtxState C :=
  if s.mounted then
    { s with location := some loc, address := addr, lastUpdated := some now,
             lastLocationRef := some loc, lastAddressRef := addr }
  else s

/-- The catch branch of the fetch (`Context.tsx` lines 376-379): `handleError`
records a `position_unavailable` error (this write is not mounted-guarded in
the source, but touches only the error slot). -/
def applyFetchFailure {C : Type} (s : CtxState C) (msg : Option String) :
    CtxState C :=
  { s with error := some ⟨LocationErrorType.position_unavailable,
      msg.getD "An unknown error occurred"⟩ }

/-- The `useEffect` cleanup (`Context.tsx` lines 575-588): flag unmounted, stop
watching (remove and null the subscription), and `clearTimeout` every pending
geofence dwell timer. -/
def teardown {C : Type} (s : CtxState C) : CtxState C :=
  { s with mounted := false, subscription := none, isWatching := false,
           geofenceDwellTimers := [] }

end Ctx

/-- C8: a fetch completing after the provider was torn down is discarded: with
the mounted flag cleared, the completion writes none of location, address,
lastUpdated or the cache refs; teardown itself clears the mounted flag,
releases the subscription and cancels all pending dwell timers; and even the
(unguarded) failure branch touches only the error slot, leaving those fields
as they were. -/
theorem c8_teardown_discards_inflight_fetch :
    ∀ (C : Type) (s : Ctx.CtxState C) (loc : C × C)
      (addr : Option Ctx.LocationAddress) (now : Nat) (m : Option String),
      (s.mounted = false → Ctx.applyFetchSuccess s loc addr now = s)
      ∧ (Ctx.teardown s).mounted = false
      ∧ (Ctx.teardown s).subscription = none
      ∧ (Ctx.teardown s).geofenceDwellTimers = []
      ∧ Ctx.applyFetchSuccess (Ctx.teardown s) loc addr now = Ctx.teardown s
      ∧ (Ctx.applyFetchFailure (Ctx.teardown s) m).location = s.location
      ∧ (Ctx.applyFetchFailure (Ctx.teardown s) m).address = s.address
      ∧ (Ctx.applyFetchFailure (Ctx.teardown s) m).lastUpdated = s.lastUpdated
      ∧ (Ctx.applyFetchFailure (Ctx.teardown s) m).lastLocationRef = s.lastLocationRef
      ∧ (Ctx.applyFetchFailure (Ctx.teardown s) m).lastAddressRef = s.lastAddressRef := by
  intro C s loc addr now m
  refine ⟨?_, rfl, rfl, rfl, ?_, rfl, rfl, rfl, rfl, rfl⟩
  · intro h
    unfold Ctx.applyFetchSuccess
    rw [h]
    simp
  · unfold Ctx.applyFetchSuccess
    simp [Ctx.teardown]

/-- Concrete torn-down provider state over integer coordinates. -/
def exUnmounted : Ctx.CtxState Int :=
  { (Ctx.freshCtx : Ctx.CtxState Int) with mounted := false }

/-- Closed witness for C8: at a concrete unmounted state, a completing fetch
changes nothing. -/
theorem c8_witness :
    Ctx.applyFetchSuccess exUnmounted (1, 2) none 5 = exUnmounted
    ∧ Ctx.applyFetchSuccess (Ctx.teardown (Ctx.freshCtx : Ctx.CtxState Int))
        (1, 2) none 5 = Ctx.teardown (Ctx.freshCtx : Ctx.CtxState Int) :=
  ⟨(c8_teardown_discards_inflight_fetch Int exUnmounted (1, 2) none 5 none).1 rfl,
   (c8_teardown_discards_inflight_fetch Int Ctx.freshCtx (1, 2) none 5
      none).2.2.2.2.1⟩

end Solomo

namespace Solomo

namespace Ctx

/-- The dwell timers stored under a given region id. -/
def timersFor {C : Type} (ts : List (DwellTimer C)) (rid : String) :
    List (DwellTimer C) :=
  ts.filter (fun t => t.id == rid)

/-- The logged events whose region carries a given id. -/
def eventsFor {C : Type} (evs : List (GeofenceEvent C)) (rid : String) :
    List (GeofenceEvent C) :=
  evs.filter (fun e => e.region.id == rid)

/-- Whether an event of the given kind was emitted for the given region id. -/
def emitsFor {C : Type} (evs : List (GeofenceEvent C)) (rid : String)
    (ty : GeofenceEventType) : Bool :=
  (eventsFor evs rid).any (fun e => e.eventType == ty)

lemma lookupState_setState_self (m : List (String × Bool)) (rid : String)
    (b : Bool) : lookupState (setState m rid b) rid = b := by
  unfold lookupState setState
  rw [List.find?_append]
  have h1 : (m.filter fun p => !(p.1 == rid)).find? (fun p => p.1 == rid) = none := by
    refine List.find?_eq_none.mpr fun p hp => ?_
    have h2 := (List.mem_filter.mp hp).2
    simp only [Bool.not_eq_true'] at h2
    simp [h2]
  rw [h1]
  simp [List.find?]

lemma lookupState_setState_other (m : List (String × Bool)) (rid rid' : String)
    (b : Bool) (h : rid' ≠ rid) :
    lookupState (setState m rid b) rid' = lookupState m rid' := by
  unfold lookupState setState
  rw [List.find?_append]
  have h2 : (m.filter fun p => !(p.1 == rid)).find? (fun p => p.1 == rid')
      = m.find? (fun p => p.1 == rid') := by
    induction m with
    | nil => rfl
    | cons p t ih =>
      by_cases hp : p.1 = rid
      · rw [List.filter_cons_of_neg (by simp [hp])]
        have hq : (p.1 == rid') = false := by simp [hp, Ne.symm h]
        simp only [List.find?, hq]
        exact ih
      · rw [List.filter_cons_of_pos (by simp [hp])]
        cases hq : (p.1 == rid') with
        | true => simp only [List.find?, hq]
        | false =>
          simp only [List.find?, hq]
          exact ih
  rw [h2]
  have h3 : ((rid == rid') : Bool) = false := by simp [Ne.symm h]
  cases hm : m.find? (fun p => p.1 == rid') with
  | some p => rfl
  | none =>
    simp only [List.find?, h3]
    rfl

lemma timersFor_removeTimer_self {C : Type} (ts : List (DwellTimer C))
    (rid : String) : timersFor (removeTimer ts rid) rid = [] := by
  unfold timersFor removeTimer
  rw [List.filter_filter]
  refine List.filter_eq_nil_iff.mpr fun t _ => ?_
  cases h : (t.id == rid) <;> simp [h]

lemma timersFor_removeTimer_other {C : Type} (ts : List (DwellTimer C))
    (rid rid' : String) (h : rid' ≠ rid) :
    timersFor (removeTimer ts rid) rid' = timersFor ts rid' := by
  unfold timersFor removeTimer
  rw [List.filter_filter]
  refine List.filter_congr fun t _ => ?_
  cases hq : (t.id == rid') with
  | false => simp [hq]
  | true =>
    have ht : t.id = rid' := by simpa using hq
    simp [hq, ht, h]

lemma timersFor_setTimer_self {C : Type} (ts : List (DwellTimer C))
    (tm : DwellTimer C) : timersFor (setTimer ts tm) tm.id = [tm] := by
  have h1 : timersFor (removeTimer ts tm.id) tm.id = [] :=
    timersFor_removeTimer_self ts tm.id
  show timersFor (removeTimer ts tm.id ++ [tm]) tm.id = [tm]
  unfold timersFor at h1 ⊢
  rw [List.filter_append, h1]
  simp

lemma timersFor_setTimer_other {C : Type} (ts : List (DwellTimer C))
    (tm : DwellTimer C) (rid : String) (h : rid ≠ tm.id) :
    timersFor (setTimer ts tm) rid = timersFor ts rid := by
  have h1 : timersFor (removeTimer ts tm.id) rid = timersFor ts rid :=
    timersFor_removeTimer_other ts tm.id rid h
  show timersFor (removeTimer ts tm.id ++ [tm]) rid = timersFor ts rid
  unfold timersFor at h1 ⊢
  rw [List.filter_append, h1]
  simp [Ne.symm h]

lemma eventsFor_append {C : Type} (evs evs' : List (GeofenceEvent C))
    (rid : String) :
    eventsFor (evs ++ evs') rid = eventsFor evs rid ++ eventsFor evs' rid :=
  List.filter_append ..

/-- Per-id view of the evaluator accumulator: the containment bit, the pending
timers and the logged events of one region id. -/
structure IdView (C : Type) where
  inside : Bool
  timer : List (DwellTimer C)
  events : List (GeofenceEvent C)

def idView {C : Type} (rid : String) (acc : GeoAcc C) : IdView C :=
  ⟨lookupState acc.states rid, timersFor acc.timers rid, eventsFor acc.events rid⟩

/-- What one pass of the loop body does to its own region id. -/
def idStep {C : Type} (ins : GeofenceRegion C → C × C → Bool) (loc : C × C)
    (now : Nat) (r : GeofenceRegion C) (v : IdView C) : IdView C :=
  if !v.inside && ins r loc then
    ⟨ins r loc, [⟨r.id, r, loc, now + 10000⟩], v.events ++ [⟨r, .enter, loc, now⟩]⟩
  else if v.inside && !(ins r loc) then
    ⟨ins r loc, [], v.events ++ [⟨r, .exit, loc, now⟩]⟩
  else
    ⟨ins r loc, v.timer, v.events⟩

lemma idStep_inside {C : Type} (ins : GeofenceRegion C → C × C → Bool)
    (loc : C × C) (now : Nat) (r : GeofenceRegion C) (v : IdView C) :
    (idStep ins loc now r v).inside = ins r loc := by
  unfold idStep
  split
  · rfl
  · split <;> rfl

lemma idView_checkRegion_self {C : Type} (ins : GeofenceRegion C → C × C → Bool)
    (loc : C × C) (now : Nat) (acc : GeoAcc C) (r : GeofenceRegion C) :
    idView r.id (checkRegion ins loc now acc r)
      = idStep ins loc now r (idView r.id acc) := by
  unfold checkRegion idStep idView
  cases hw : lookupState acc.states r.id <;> cases hi : ins r loc <;>
    simp [hw, hi, lookupState_setState_self,
      timersFor_setTimer_self acc.timers ⟨r.id, r, loc, now + 10000⟩,
      timersFor_removeTimer_self, eventsFor_append, eventsFor]

lemma idView_checkRegion_other {C : Type} (ins : GeofenceRegion C → C × C → Bool)
    (loc : C × C) (now : Nat) (acc : GeoAcc C) (r : GeofenceRegion C)
    (rid : String) (h : rid ≠ r.id) :
    idView rid (checkRegion ins loc now acc r) = idView rid acc := by
  unfold checkRegion idView
  cases hw : lookupState acc.states r.id <;> cases hi : ins r loc <;>
    simp [hw, hi, lookupState_setState_other acc.states r.id rid _ h,
      timersFor_setTimer_other acc.timers ⟨r.id, r, loc, now + 10000⟩ rid h,
      timersFor_removeTimer_other acc.timers r.id rid h,
      eventsFor_append, eventsFor, Ne.symm h]

lemma idView_foldl_frame {C : Type} (ins : GeofenceRegion C → C × C → Bool)
    (loc : C × C) (now : Nat) (rs : List (GeofenceRegion C)) (acc : GeoAcc C)
    (rid : String) (h : ∀ r ∈ rs, rid ≠ r.id) :
    idView rid (rs.foldl (checkRegion ins loc now) acc) = idView rid acc := by
  induction rs generalizing acc with
  | nil => rfl
  | cons r t ih =>
    rw [List.foldl_cons]
    rw [ih _ (fun r' hr' => h r' (List.mem_cons_of_mem _ hr'))]
    exact idView_checkRegion_other ins loc now acc r rid
      (h r (List.mem_cons_self _ _))

lemma idView_foldl_mem {C : Type} (ins : GeofenceRegion C → C × C → Bool)
    (loc : C × C) (now : Nat) (rs : List (GeofenceRegion C)) (acc : GeoAcc C)
    (r : GeofenceRegion C) (hr : r ∈ rs) (hnd : (rs.map (·.id)).Nodup) :
    idView r.id (rs.foldl (checkRegion ins loc now) acc)
      = idStep ins loc now r (idView r.id acc) := by
  obtain ⟨l₁, l₂, rfl⟩ := List.append_of_mem hr
  rw [List.map_append, List.map_cons] at hnd
  have hdisj := List.disjoint_of_nodup_append hnd
  have hnd2 := hnd.of_append_right
  have hnotin₁ : ∀ r' ∈ l₁, r.id ≠ r'.id := by
    intro r' hr' heq
    exact hdisj (heq ▸ List.mem_map_of_mem (fun x => x.id) hr')
      (List.mem_cons_self _ _)
  have hnotin₂ : ∀ r' ∈ l₂, r.id ≠ r'.id := by
    intro r' hr' heq
    have := (List.nodup_cons.mp hnd2).1
    exact this (heq ▸ List.mem_map_of_mem (fun x => x.id) hr')
  rw [List.foldl_append, List.foldl_cons]
  rw [idView_foldl_frame ins loc now l₂ _ r.id hnotin₂]
  rw [idView_checkRegion_self]
  rw [idView_foldl_frame ins loc now l₁ acc r.id hnotin₁]

lemma checkGeofences_idView {C : Type} (ins : GeofenceRegion C → C × C → Bool)
    (s : CtxState C) (loc : C × C) (now : Nat) (r : GeofenceRegion C)
    (hr : r ∈ s.geofences) (hnd : (s.geofences.map (·.id)).Nodup) :
    idView r.id ⟨(checkGeofences ins s loc now).1.lastGeofenceStates,
                 (checkGeofences ins s loc now).1.geofenceDwellTimers,
                 (checkGeofences ins s loc now).2⟩
      = idStep ins loc now r
          (idView r.id ⟨s.lastGeofenceStates, s.geofenceDwellTimers, []⟩) := by
  have hne : ¬ s.geofences.isEmpty = true := by
    cases hgs : s.geofences with
    | nil => rw [hgs] at hr; exact absurd hr (List.not_mem_nil r)
    | cons a t => simp
  unfold checkGeofences
  rw [if_neg hne]
  exact idView_foldl_mem ins loc now s.geofences _ r hr hnd

end Ctx

end Solomo

namespace Solomo

namespace Ctx

/-- `getDistance` from `Context.tsx` (lines 110-119), over the reals:
`R * 2 * asin(sqrt a)` with `R = 6371000`,
`a = 0.5 - cos(dLat)/2 + cos(lat1·π/180)·cos(lat2·π/180)·(1 - cos(dLon))/2`,
`dLat = (lat2-lat1)·π/180`, `dLon = (lon2-lon1)·π/180` (the haversine form of
the great-circle distance). -/
noncomputable def getDistance (lat1 lon1 lat2 lon2 : ℝ) : ℝ :=
  6371000 * 2 * Real.arcsin (Real.sqrt (
    0.5 - Real.cos ((lat2 - lat1) * Real.pi / 180) / 2 +
    Real.cos (lat1 * Real.pi / 180) * Real.cos (lat2 * Real.pi / 180) *
      (1 - Real.cos ((lon2 - lon1) * Real.pi / 180)) / 2))

/-- The containment test `distance <= radius` of `checkGeofences`, as a Boolean
(classically decided; the platform computes it on floats). -/
noncomputable def insideReal (r : GeofenceRegion ℝ) (p : ℝ × ℝ) : Bool :=
  decide (getDistance r.latitude r.longitude p.1 p.2 ≤ r.radius)

lemma getDistance_zero : getDistance 0 0 0 0 = 0 := by
  unfold getDistance
  norm_num

lemma getDistance_east : getDistance 0 0 0 0.002 = 6371000 * (Real.pi / 90000) := by
  unfold getDistance
  have h1 : ((0.002 : ℝ) - 0) * Real.pi / 180 = Real.pi / 90000 := by
    have h500 : (0.002 : ℝ) = 1 / 500 := by norm_num
    rw [sub_zero, h500]
    ring
  have h0 : ((0 : ℝ) - 0) * Real.pi / 180 = 0 := by ring
  have hlat : (0 : ℝ) * Real.pi / 180 = 0 := by ring
  rw [h0, h1, hlat, Real.cos_zero]
  have ha : (0.5 : ℝ) - 1 / 2 + 1 * 1 * (1 - Real.cos (Real.pi / 90000)) / 2
      = Real.sin (Real.pi / 180000) ^ 2 := by
    rw [Real.sin_sq_eq_half_sub]
    have h2 : 2 * (Real.pi / 180000) = Real.pi / 90000 := by ring
    rw [h2]
    ring
  rw [ha, Real.sqrt_sq_eq_abs]
  have hpos := Real.pi_pos
  have hge : (0 : ℝ) ≤ Real.pi / 180000 := by positivity
  have hle : Real.pi / 180000 ≤ Real.pi := by nlinarith
  have hle2 : Real.pi / 180000 ≤ Real.pi / 2 := by nlinarith
  have hlow : -(Real.pi / 2) ≤ Real.pi / 180000 := by nlinarith
  rw [abs_of_nonneg (Real.sin_nonneg_of_nonneg_of_le_pi hge hle)]
  rw [Real.arcsin_sin hlow hle2]
  ring

lemma getDistance_east_gt : 100 < getDistance 0 0 0 0.002 := by
  rw [getDistance_east]
  have h3 := Real.pi_gt_three
  nlinarith

/-- Sample region for the concrete geometry run: radius 100 m centered at
latitude 0, longitude 0. -/
def homeRegion : GeofenceRegion ℝ := ⟨"home", 0, 0, 100⟩

lemma insideReal_home_origin : insideReal homeRegion (0, 0) = true := by
  unfold insideReal homeRegion
  simp only [decide_eq_true_eq]
  rw [getDistance_zero]
  norm_num

lemma insideReal_home_east : insideReal homeRegion (0, 0.002) = false := by
  unfold insideReal homeRegion
  exact decide_eq_false (not_le.mpr getDistance_east_gt)

end Ctx

end Solomo

namespace Solomo

namespace Ctx

lemma homeRegion_id : homeRegion.id = "home" := rfl

lemma insideReal_home_zero : insideReal homeRegion 0 = true :=
  insideReal_home_origin

lemma trace_run_eval :
    (geoRun insideReal freshCtx
      [(0, GeoCmd.register [homeRegion]),
       (1000, GeoCmd.update (0, 0)),
       (2000, GeoCmd.update (0, 0.002)),
       (3000, GeoCmd.update (0, 0))]).2.map (fun e => e.eventType)
      = [GeofenceEventType.enter, GeofenceEventType.exit,
         GeofenceEventType.enter] := by
  simp [geoRun, geoStep, fireDue, checkGeofences, checkRegion,
    registerGeofences, freshCtx, lookupState, setState,
    setTimer, removeTimer, insideReal_home_origin, insideReal_home_zero,
    insideReal_home_east, homeRegion_id, List.find?]

end Ctx

/-- C1: for every registered region (with distinct registered ids) and every
position update, the evaluator classifies the sample inside exactly when the
containment test holds, emits `enter` exactly on a false→true transition of
the stored containment boolean and `exit` exactly on a true→false transition;
the containment test over the reals holds iff the great-circle (haversine,
Earth radius 6,371,000 m) distance to the center is at most the radius; and on
the concrete run — region of radius 100 m at (0,0), updates at (0,0),
(0,0.002°), (0,0) — the evaluator emits exactly enter, exit, enter. -/
theorem c1_geofence_classification :
    (∀ (C : Type) (ins : Ctx.GeofenceRegion C → C × C → Bool)
      (s : Ctx.CtxState C) (loc : C × C) (now : Nat) (r : Ctx.GeofenceRegion C),
      r ∈ s.geofences → (s.geofences.map (·.id)).Nodup →
      (Ctx.emitsFor (Ctx.checkGeofences ins s loc now).2 r.id
          Ctx.GeofenceEventType.enter = true
        ↔ Ctx.lookupState s.lastGeofenceStates r.id = false ∧ ins r loc = true)
      ∧ (Ctx.emitsFor (Ctx.checkGeofences ins s loc now).2 r.id
          Ctx.GeofenceEventType.exit = true
        ↔ Ctx.lookupState s.lastGeofenceStates r.id = true ∧ ins r loc = false)
      ∧ Ctx.lookupState
          (Ctx.checkGeofences ins s loc now).1.lastGeofenceStates r.id = ins r loc)
    ∧ (∀ (r : Ctx.GeofenceRegion ℝ) (p : ℝ × ℝ),
      Ctx.insideReal r p = true
        ↔ Ctx.getDistance r.latitude r.longitude p.1 p.2 ≤ r.radius)
    ∧ (Ctx.geoRun Ctx.insideReal Ctx.freshCtx
        [(0, Ctx.GeoCmd.register [Ctx.homeRegion]),
         (1000, Ctx.GeoCmd.update (0, 0)),
         (2000, Ctx.GeoCmd.update (0, 0.002)),
         (3000, Ctx.GeoCmd.update (0, 0))]).2.map (fun e => e.eventType)
      = [Ctx.GeofenceEventType.enter, Ctx.GeofenceEventType.exit,
         Ctx.GeofenceEventType.enter] := by
  refine ⟨?_, ?_, Ctx.trace_run_eval⟩
  · intro C ins s loc now r hr hnd
    have hproj := Ctx.checkGeofences_idView ins s loc now r hr hnd
    have hev : Ctx.eventsFor (Ctx.checkGeofences ins s loc now).2 r.id
        = (Ctx.idStep ins loc now r
            (Ctx.idView r.id
              ⟨s.lastGeofenceStates, s.geofenceDwellTimers, []⟩)).events :=
      congrArg Ctx.IdView.events hproj
    have hst : Ctx.lookupState
        (Ctx.checkGeofences ins s loc now).1.lastGeofenceStates r.id
        = (Ctx.idStep ins loc now r
            (Ctx.idView r.id
              ⟨s.lastGeofenceStates, s.geofenceDwellTimers, []⟩)).inside :=
      congrArg Ctx.IdView.inside hproj
    refine ⟨?_, ?_, ?_⟩
    · unfold Ctx.emitsFor
      rw [hev]
      cases hw : Ctx.lookupState s.lastGeofenceStates r.id <;>
        cases hi : ins r loc <;>
        simp [Ctx.idStep, Ctx.idView, Ctx.eventsFor, hw, hi]
    · unfold Ctx.emitsFor
      rw [hev]
      cases hw : Ctx.lookupState s.lastGeofenceStates r.id <;>
        cases hi : ins r loc <;>
        simp [Ctx.idStep, Ctx.idView, Ctx.eventsFor, hw, hi]
    · rw [hst, Ctx.idStep_inside]
  · intro r p
    unfold Ctx.insideReal
    rw [decide_eq_true_eq]

/-- Concrete single-region state over integer coordinates for the C1 witness. -/
def exGeo : Ctx.CtxState Int :=
  { (Ctx.freshCtx : Ctx.CtxState Int) with geofences := [Ctx.demoRegion] }

/-- Closed witness for C1: at a concrete state and update, the enter emission
equivalence produced by the classification theorem holds with both sides true. -/
theorem c1_witness :
    (Ctx.emitsFor (Ctx.checkGeofences Ctx.insCenter exGeo (0, 0) 5).2
        Ctx.demoRegion.id Ctx.GeofenceEventType.enter = true
      ↔ Ctx.lookupState exGeo.lastGeofenceStates Ctx.demoRegion.id = false
        ∧ Ctx.insCenter Ctx.demoRegion (0, 0) = true)
    ∧ Ctx.emitsFor (Ctx.checkGeofences Ctx.insCenter exGeo (0, 0) 5).2
        Ctx.demoRegion.id Ctx.GeofenceEventType.enter = true :=
  ⟨((c1_geofence_classification.1 Int Ctx.insCenter exGeo (0, 0) 5
      Ctx.demoRegion (by decide) (by decide)).1),
   by decide⟩

end Solomo

namespace Solomo

namespace Ctx

/-- An event of the given kind for the given region id was emitted with the
given timestamp. -/
def emitsAt {C : Type} (evs : List (GeofenceEvent C)) (rid : String)
    (ty : GeofenceEventType) (t : Nat) : Prop :=
  ∃ e ∈ evs, e.region.id = rid ∧ e.eventType = ty ∧ e.timestamp = t

lemma emitsAt_append {C : Type} (a b : List (GeofenceEvent C)) (rid : String)
    (ty : GeofenceEventType) (t : Nat) :
    emitsAt (a ++ b) rid ty t ↔ emitsAt a rid ty t ∨ emitsAt b rid ty t := by
  simp [emitsAt, List.mem_append, or_and_right, exists_or]

lemma emitsAt_nil {C : Type} (rid : String) (ty : GeofenceEventType) (t : Nat) :
    ¬ emitsAt ([] : List (GeofenceEvent C)) rid ty t := by
  simp [emitsAt]

lemma emitsAt_iff_eventsFor {C : Type} (l : List (GeofenceEvent C))
    (rid : String) (ty : GeofenceEventType) (t : Nat) :
    emitsAt l rid ty t
      ↔ ∃ e ∈ eventsFor l rid, e.eventType = ty ∧ e.timestamp = t := by
  unfold emitsAt eventsFor
  constructor
  · rintro ⟨e, he, h1, h2, h3⟩
    exact ⟨e, List.mem_filter.mpr ⟨he, by simp [h1]⟩, h2, h3⟩
  · rintro ⟨e, he, h2, h3⟩
    obtain ⟨hmem, hid⟩ := List.mem_filter.mp he
    exact ⟨e, hmem, by simpa using hid, h2, h3⟩

/-- Every stored timer's region carries the timer's own key (true of every
timer the evaluator creates). -/
def TimersWF {C : Type} (s : CtxState C) : Prop :=
  ∀ tm ∈ s.geofenceDwellTimers, tm.region.id = tm.id

lemma fireDue_timersFor {C : Type} (s : CtxState C) (now : Nat) (rid : String) :
    timersFor (fireDue s now).1.geofenceDwellTimers rid
      = (timersFor s.geofenceDwellTimers rid).filter
          (fun tm => !decide (tm.fireAt ≤ now)) := by
  unfold fireDue timersFor
  dsimp only
  rw [List.filter_filter, List.filter_filter]
  exact List.filter_congr fun tm _ => Bool.and_comm ..

lemma fireDue_fired_eventsFor {C : Type} (s : CtxState C) (now : Nat)
    (rid : String) (hwf : TimersWF s) :
    eventsFor (fireDue s now).2 rid
      = ((timersFor s.geofenceDwellTimers rid).filter
          (fun tm => decide (tm.fireAt ≤ now))).map
          (fun tm => ⟨tm.region, .dwell, tm.location, tm.fireAt⟩) := by
  unfold fireDue eventsFor timersFor
  dsimp only
  rw [List.filter_map, List.filter_filter, List.filter_filter]
  congr 1
  refine List.filter_congr fun tm hm => ?_
  have hid := hwf tm hm
  simp [Function.comp, hid, Bool.and_comm]

lemma fireDue_states {C : Type} (s : CtxState C) (now : Nat) :
    (fireDue s now).1.lastGeofenceStates = s.lastGeofenceStates := rfl

lemma fireDue_geofences {C : Type} (s : CtxState C) (now : Nat) :
    (fireDue s now).1.geofences = s.geofences := rfl

lemma checkGeofences_geofences {C : Type} (ins : GeofenceRegion C → C × C → Bool)
    (s : CtxState C) (loc : C × C) (now : Nat) :
    (checkGeofences ins s loc now).1.geofences = s.geofences := by
  unfold checkGeofences
  split <;> rfl

lemma timersWF_fireDue {C : Type} (s : CtxState C) (now : Nat)
    (hwf : TimersWF s) : TimersWF (fireDue s now).1 := by
  intro tm hm
  unfold fireDue at hm
  dsimp only at hm
  exact hwf tm (List.mem_filter.mp hm).1

lemma timersWF_checkRegion {C : Type} (ins : GeofenceRegion C → C × C → Bool)
    (loc : C × C) (now : Nat) (acc : GeoAcc C) (r : GeofenceRegion C)
    (hwf : ∀ tm ∈ acc.timers, tm.region.id = tm.id) :
    ∀ tm ∈ (checkRegion ins loc now acc r).timers, tm.region.id = tm.id := by
  intro tm hm
  unfold checkRegion at hm
  dsimp only at hm
  split at hm
  · simp only [setTimer, removeTimer] at hm
    rcases List.mem_append.mp hm with hm | hm
    · exact hwf tm (List.mem_filter.mp hm).1
    · rw [List.mem_singleton.mp hm]
  · split at hm
    · simp only [removeTimer] at hm
      exact hwf tm (List.mem_filter.mp hm).1
    · exact hwf tm hm

lemma timersWF_fold {C : Type} (ins : GeofenceRegion C → C × C → Bool)
    (loc : C × C) (now : Nat) (rs : List (GeofenceRegion C)) :
    ∀ (acc : GeoAcc C), (∀ tm ∈ acc.timers, tm.region.id = tm.id) →
      ∀ tm ∈ (rs.foldl (checkRegion ins loc now) acc).timers, tm.region.id = tm.id := by
  induction rs with
  | nil => intro acc hacc; exact hacc
  | cons r t ih =>
    intro acc hacc
    rw [List.foldl_cons]
    exact ih _ (timersWF_checkRegion ins loc now acc r hacc)

lemma timersWF_checkGeofences {C : Type} (ins : GeofenceRegion C → C × C → Bool)
    (s : CtxState C) (loc : C × C) (now : Nat) (hwf : TimersWF s) :
    TimersWF (checkGeofences ins s loc now).1 := by
  unfold checkGeofences
  split
  · exact hwf
  · exact timersWF_fold ins loc now s.geofences
      ⟨s.lastGeofenceStates, s.geofenceDwellTimers, []⟩ hwf

lemma nodupKeys_checkRegion {C : Type} (ins : GeofenceRegion C → C × C → Bool)
    (loc : C × C) (now : Nat) (acc : GeoAcc C) (r : GeofenceRegion C)
    (hnd : (acc.timers.map (·.id)).Nodup) :
    ((checkRegion ins loc now acc r).timers.map (·.id)).Nodup := by
  unfold checkRegion
  dsimp only
  split
  · simp only [setTimer, removeTimer, List.map_append]
    rw [List.nodup_append]
    refine ⟨hnd.sublist (List.Sublist.map _ (List.filter_sublist _)), by simp, ?_⟩
    intro x hx
    simp only [List.mem_map] at hx
    obtain ⟨tm, hm, hx⟩ := hx
    obtain ⟨-, hne⟩ := List.mem_filter.mp hm
    simp only [List.map_cons, List.map_nil, List.mem_singleton]
    intro hx2
    rw [hx2] at hx
    simp [hx] at hne
  · split
    · exact hnd.sublist (List.Sublist.map _ (List.filter_sublist _))
    · exact hnd

lemma nodupKeys_fold {C : Type} (ins : GeofenceRegion C → C × C → Bool)
    (loc : C × C) (now : Nat) (rs : List (GeofenceRegion C)) :
    ∀ (acc : GeoAcc C), (acc.timers.map (·.id)).Nodup →
      ((rs.foldl (checkRegion ins loc now) acc).timers.map (·.id)).Nodup := by
  induction rs with
  | nil => intro acc hacc; exact hacc
  | cons r t ih =>
    intro acc hacc
    rw [List.foldl_cons]
    exact ih _ (nodupKeys_checkRegion ins loc now acc r hacc)

lemma nodupKeys_geoStep {C : Type} (ins : GeofenceRegion C → C × C → Bool)
    (s : CtxState C) (now : Nat) (c : GeoCmd C)
    (hnd : (s.geofenceDwellTimers.map (·.id)).Nodup) :
    (((geoStep ins s now c).1.geofenceDwellTimers).map (·.id)).Nodup := by
  have hfire : ((fireDue s now).1.geofenceDwellTimers.map (·.id)).Nodup :=
    hnd.sublist (List.Sublist.map _ (List.filter_sublist _))
  unfold geoStep
  cases c with
  | update loc =>
    dsimp only
    unfold checkGeofences
    split
    · exact hfire
    · exact nodupKeys_fold ins loc now (fireDue s now).1.geofences _ hfire
  | register rs => exact hfire
  | unregister => simp [unregisterGeofences]
  | advance => exact hfire

end Ctx

end Solomo

namespace Solomo

namespace Ctx

/-- A dwell timer for region `r` is semantically pending: an `enter` for `r.id`
happened at `te`, no later `exit` for `r.id` was emitted, and the due time
`te + 10000` has not been reached by `tp`. -/
def Pend {C : Type} (r : GeofenceRegion C) (E : List (GeofenceEvent C))
    (tp te : Nat) : Prop :=
  emitsAt E r.id .enter te
  ∧ (∀ tx, emitsAt E r.id .exit tx → tx ≤ te)
  ∧ tp < te + 10000

/-- Invariant tying the per-id evaluator state to the emitted trace `E` at
time `tp`, for a fixed region `r` and time horizon `T`. -/
structure DwellInv {C : Type} (r : GeofenceRegion C) (T : Nat) (s : CtxState C)
    (E : List (GeofenceEvent C)) (tp : Nat) : Prop where
  pend : (∃ l te, timersFor s.geofenceDwellTimers r.id = [⟨r.id, r, l, te + 10000⟩]
            ∧ Pend r E tp te ∧ lookupState s.lastGeofenceStates r.id = true)
    ∨ (timersFor s.geofenceDwellTimers r.id = [] ∧ ∀ te, ¬ Pend r E tp te)
  inside : lookupState s.lastGeofenceStates r.id = true
    ↔ ∃ te, emitsAt E r.id .enter te ∧ ∀ tx, emitsAt E r.id .exit tx → tx ≤ te
  bound : ∀ ty t, emitsAt E r.id ty t → t ≤ tp
  dwell : ∀ t, emitsAt E r.id .dwell t
    ↔ ∃ te, t = te + 10000 ∧ emitsAt E r.id .enter te
        ∧ (∀ tx, emitsAt E r.id .exit tx → tx ≤ te ∨ t ≤ tx) ∧ t ≤ tp
  sep : ∀ te te', emitsAt E r.id .enter te → emitsAt E r.id .enter te' →
    te < te' → ∃ tx, emitsAt E r.id .exit tx ∧ te < tx ∧ tx < te'
  enters : ∀ te, emitsAt E r.id .enter te → te + 10000 ≤ T

lemma pend_unique {C : Type} {r : GeofenceRegion C} {E : List (GeofenceEvent C)}
    {tp tp' te te' : Nat}
    (hsep : ∀ a b, emitsAt E r.id .enter a → emitsAt E r.id .enter b → a < b →
      ∃ tx, emitsAt E r.id .exit tx ∧ a < tx ∧ tx < b)
    (h1 : Pend r E tp te) (h2 : Pend r E tp' te') : te = te' := by
  rcases Nat.lt_trichotomy te te' with h | h | h
  · obtain ⟨tx, hx, hgt, hlt⟩ := hsep te te' h1.1 h2.1 h
    have := h1.2.1 tx hx
    omega
  · exact h
  · obtain ⟨tx, hx, hgt, hlt⟩ := hsep te' te h2.1 h1.1 h
    have := h2.2.1 tx hx
    omega

lemma emitsAt_of_eventsFor_nil {C : Type} {l : List (GeofenceEvent C)}
    {rid : String} (h : eventsFor l rid = []) (ty : GeofenceEventType) (t : Nat) :
    ¬ emitsAt l rid ty t := by
  intro he
  rw [emitsAt_iff_eventsFor, h] at he
  simp at he

lemma emitsAt_of_eventsFor_singleton {C : Type} {l : List (GeofenceEvent C)}
    {rid : String} {e : GeofenceEvent C} (h : eventsFor l rid = [e])
    (ty : GeofenceEventType) (t : Nat) :
    emitsAt l rid ty t ↔ (e.eventType = ty ∧ e.timestamp = t) := by
  rw [emitsAt_iff_eventsFor, h]
  simp

lemma dwellInv_fireDue {C : Type} (r : GeofenceRegion C) (s : CtxState C)
    (E : List (GeofenceEvent C)) (tp now T : Nat)
    (hwf : TimersWF s) (hinv : DwellInv r T s E tp) (htp : tp < now) :
    DwellInv r T (fireDue s now).1 (E ++ (fireDue s now).2) now := by
  have hF := fireDue_fired_eventsFor s now r.id hwf
  have hTm := fireDue_timersFor s now r.id
  have hstates := fireDue_states s now
  rcases hpend : hinv.pend with ⟨l, te, hTm0, hP, hlk⟩ | ⟨hTm0, hNP⟩
  · by_cases hdue : te + 10000 ≤ now
    · -- the pending timer fires now
      have hfil : (timersFor s.geofenceDwellTimers r.id).filter
          (fun tm => decide (tm.fireAt ≤ now)) = [⟨r.id, r, l, te + 10000⟩] := by
        rw [hTm0]
        simp [hdue]
      have hFone : eventsFor (fireDue s now).2 r.id
          = [⟨r, .dwell, l, te + 10000⟩] := by
        rw [hF, hfil]
        rfl
      have hTm' : timersFor (fireDue s now).1.geofenceDwellTimers r.id = [] := by
        rw [hTm, hTm0]
        simp [hdue]
      have hE' : ∀ ty t, emitsAt (E ++ (fireDue s now).2) r.id ty t
          ↔ emitsAt E r.id ty t ∨ (GeofenceEventType.dwell = ty ∧ te + 10000 = t) := by
        intro ty t
        rw [emitsAt_append, emitsAt_of_eventsFor_singleton hFone]
      have hEen : ∀ t, emitsAt (E ++ (fireDue s now).2) r.id .enter t
          ↔ emitsAt E r.id .enter t := by
        intro t
        rw [hE']
        simp
      have hEex : ∀ t, emitsAt (E ++ (fireDue s now).2) r.id .exit t
          ↔ emitsAt E r.id .exit t := by
        intro t
        rw [hE']
        simp
      refine ⟨?_, ?_, ?_, ?_, ?_, ?_⟩
      · refine Or.inr ⟨hTm', fun te' hP' => ?_⟩
        have hP'' : Pend r E tp te' := by
          refine ⟨(hEen te').mp hP'.1, fun tx hx => hP'.2.1 tx ((hEex tx).mpr hx), ?_⟩
          have := hP'.2.2
          omega
        have := pend_unique hinv.sep hP'' hP
        subst this
        exact absurd hP'.2.2 (by omega)
      · rw [hstates, hinv.inside]
        constructor
        · rintro ⟨te', h1, h2⟩
          exact ⟨te', (hEen te').mpr h1, fun tx hx => h2 tx ((hEex tx).mp hx)⟩
        · rintro ⟨te', h1, h2⟩
          exact ⟨te', (hEen te').mp h1, fun tx hx => h2 tx ((hEex tx).mpr hx)⟩
      · intro ty t ht
        rcases (hE' ty t).mp ht with h | ⟨-, h⟩
        · exact le_trans (hinv.bound ty t h) (le_of_lt htp)
        · omega
      · intro t
        rw [hE']
        constructor
        · rintro (hd | ⟨-, ht⟩)
          · obtain ⟨te', h1, h2, h3, h4⟩ := (hinv.dwell t).mp hd
            refine ⟨te', h1, (hEen te').mpr h2, fun tx hx => h3 tx ((hEex tx).mp hx), by omega⟩
          · refine ⟨te, by omega, (hEen te).mpr hP.1,
              fun tx hx => Or.inl (hP.2.1 tx ((hEex tx).mp hx)), by omega⟩
        · rintro ⟨te', h1, h2, h3, h4⟩
          have h2' := (hEen te').mp h2
          have h3' : ∀ tx, emitsAt E r.id .exit tx → tx ≤ te' ∨ t ≤ tx :=
            fun tx hx => h3 tx ((hEex tx).mpr hx)
          by_cases hle : t ≤ tp
          · exact Or.inl ((hinv.dwell t).mpr ⟨te', h1, h2', h3', hle⟩)
          · have hPE : Pend r E tp te' := by
              refine ⟨h2', fun tx hx => ?_, by omega⟩
              rcases h3' tx hx with h | h
              · exact h
              · have := hinv.bound .exit tx hx
                omega
            have := pend_unique hinv.sep hPE hP
            subst this
            exact Or.inr ⟨rfl, by omega⟩
      · intro a b ha hb hab
        obtain ⟨tx, h1, h2⟩ := hinv.sep a b ((hEen a).mp ha) ((hEen b).mp hb) hab
        exact ⟨tx, (hEex tx).mpr h1, h2⟩
      · intro te' h
        exact hinv.enters te' ((hEen te').mp h)
    · -- the pending timer is not yet due
      have hfilkeep : (timersFor s.geofenceDwellTimers r.id).filter
          (fun tm => decide (tm.fireAt ≤ now)) = [] := by
        rw [hTm0]
        simp [hdue]
      have hFnil : eventsFor (fireDue s now).2 r.id = [] := by
        rw [hF, hfilkeep]
        rfl
      have hTm' : timersFor (fireDue s now).1.geofenceDwellTimers r.id
          = [⟨r.id, r, l, te + 10000⟩] := by
        rw [hTm, hTm0]
        simp [hdue]
      have hE' : ∀ ty t, emitsAt (E ++ (fireDue s now).2) r.id ty t
          ↔ emitsAt E r.id ty t := by
        intro ty t
        rw [emitsAt_append]
        exact or_iff_left (emitsAt_of_eventsFor_nil hFnil ty t)
      refine ⟨?_, ?_, ?_, ?_, ?_, ?_⟩
      · refine Or.inl ⟨l, te, hTm', ?_, by rw [hstates]; exact hlk⟩
        refine ⟨(hE' _ te).mpr hP.1, fun tx hx => hP.2.1 tx ((hE' _ tx).mp hx), by omega⟩
      · rw [hstates, hinv.inside]
        constructor
        · rintro ⟨te', h1, h2⟩
          exact ⟨te', (hE' _ te').mpr h1, fun tx hx => h2 tx ((hE' _ tx).mp hx)⟩
        · rintro ⟨te', h1, h2⟩
          exact ⟨te', (hE' _ te').mp h1, fun tx hx => h2 tx ((hE' _ tx).mpr hx)⟩
      · intro ty t ht
        exact le_trans (hinv.bound ty t ((hE' ty t).mp ht)) (le_of_lt htp)
      · intro t
        rw [hE']
        constructor
        · intro hd
          obtain ⟨te', h1, h2, h3, h4⟩ := (hinv.dwell t).mp hd
          refine ⟨te', h1, (hE' _ te').mpr h2,
            fun tx hx => h3 tx ((hE' _ tx).mp hx), by omega⟩
        · rintro ⟨te', h1, h2, h3, h4⟩
          have h2' := (hE' _ te').mp h2
          have h3' : ∀ tx, emitsAt E r.id .exit tx → tx ≤ te' ∨ t ≤ tx :=
            fun tx hx => h3 tx ((hE' _ tx).mpr hx)
          by_cases hle : t ≤ tp
          · exact (hinv.dwell t).mpr ⟨te', h1, h2', h3', hle⟩
          · exfalso
            have hPE : Pend r E tp te' := by
              refine ⟨h2', fun tx hx => ?_, by omega⟩
              rcases h3' tx hx with h | h
              · exact h
              · have := hinv.bound .exit tx hx
                omega
            have := pend_unique hinv.sep hPE hP
            subst this
            omega
      · intro a b ha hb hab
        obtain ⟨tx, h1, h2⟩ := hinv.sep a b ((hE' _ a).mp ha) ((hE' _ b).mp hb) hab
        exact ⟨tx, (hE' _ tx).mpr h1, h2⟩
      · intro te' h
        exact hinv.enters te' ((hE' _ te').mp h)
  · -- no pending timer
    have hFnil : eventsFor (fireDue s now).2 r.id = [] := by
      rw [hF, hTm0]
      rfl
    have hTm' : timersFor (fireDue s now).1.geofenceDwellTimers r.id = [] := by
      rw [hTm, hTm0]
      rfl
    have hE' : ∀ ty t, emitsAt (E ++ (fireDue s now).2) r.id ty t
        ↔ emitsAt E r.id ty t := by
      intro ty t
      rw [emitsAt_append]
      exact or_iff_left (emitsAt_of_eventsFor_nil hFnil ty t)
    refine ⟨?_, ?_, ?_, ?_, ?_, ?_⟩
    · refine Or.inr ⟨hTm', fun te' hP' => ?_⟩
      refine hNP te' ⟨(hE' _ te').mp hP'.1,
        fun tx hx => hP'.2.1 tx ((hE' _ tx).mpr hx), ?_⟩
      have := hP'.2.2
      omega
    · rw [hstates, hinv.inside]
      constructor
      · rintro ⟨te', h1, h2⟩
        exact ⟨te', (hE' _ te').mpr h1, fun tx hx => h2 tx ((hE' _ tx).mp hx)⟩
      · rintro ⟨te', h1, h2⟩
        exact ⟨te', (hE' _ te').mp h1, fun tx hx => h2 tx ((hE' _ tx).mpr hx)⟩
    · intro ty t ht
      exact le_trans (hinv.bound ty t ((hE' ty t).mp ht)) (le_of_lt htp)
    · intro t
      rw [hE']
      constructor
      · intro hd
        obtain ⟨te', h1, h2, h3, h4⟩ := (hinv.dwell t).mp hd
        refine ⟨te', h1, (hE' _ te').mpr h2,
          fun tx hx => h3 tx ((hE' _ tx).mp hx), by omega⟩
      · rintro ⟨te', h1, h2, h3, h4⟩
        have h2' := (hE' _ te').mp h2
        have h3' : ∀ tx, emitsAt E r.id .exit tx → tx ≤ te' ∨ t ≤ tx :=
          fun tx hx => h3 tx ((hE' _ tx).mpr hx)
        by_cases hle : t ≤ tp
        · exact (hinv.dwell t).mpr ⟨te', h1, h2', h3', hle⟩
        · exfalso
          refine hNP te' ⟨h2', fun tx hx => ?_, by omega⟩
          rcases h3' tx hx with h | h
          · exact h
          · have := hinv.bound .exit tx hx
            omega
    · intro a b ha hb hab
      obtain ⟨tx, h1, h2⟩ := hinv.sep a b ((hE' _ a).mp ha) ((hE' _ b).mp hb) hab
      exact ⟨tx, (hE' _ tx).mpr h1, h2⟩
    · intro te' h
      exact hinv.enters te' ((hE' _ te').mp h)

end Ctx

end Solomo

namespace Solomo

namespace Ctx

lemma fireDue_only_dwell {C : Type} (s : CtxState C) (now : Nat) (rid : String)
    (hwf : TimersWF s) (ty : GeofenceEventType) (t : Nat)
    (hne : ty ≠ GeofenceEventType.dwell) :
    ¬ emitsAt (fireDue s now).2 rid ty t := by
  intro h
  rw [emitsAt_iff_eventsFor, fireDue_fired_eventsFor s now rid hwf] at h
  obtain ⟨e, he, h2, h3⟩ := h
  obtain ⟨tm, -, rfl⟩ := List.mem_map.mp he
  exact hne h2.symm

lemma dwellInv_checkGeofences {C : Type} (ins : GeofenceRegion C → C × C → Bool)
    (r : GeofenceRegion C) (s : CtxState C) (E : List (GeofenceEvent C))
    (now T : Nat) (loc : C × C)
    (hr : r ∈ s.geofences) (hnd : (s.geofences.map (·.id)).Nodup)
    (hinv : DwellInv r T s E now)
    (hen : ∀ t, emitsAt E r.id .enter t → t < now)
    (hex : ∀ t, emitsAt E r.id .exit t → t < now)
    (hT : now + 10000 ≤ T) :
    DwellInv r T (checkGeofences ins s loc now).1
      (E ++ (checkGeofences ins s loc now).2) now := by
  have hproj := checkGeofences_idView ins s loc now r hr hnd
  have hidv : idView r.id (⟨s.lastGeofenceStates, s.geofenceDwellTimers, []⟩ : GeoAcc C)
      = ⟨lookupState s.lastGeofenceStates r.id,
         timersFor s.geofenceDwellTimers r.id, []⟩ := by
    unfold idView
    simp [eventsFor]
  rw [hidv] at hproj
  cases hW : lookupState s.lastGeofenceStates r.id <;> cases hI : ins r loc <;>
    rw [hW] at hproj <;> simp only [idStep, hI, Bool.not_false, Bool.not_true,
      Bool.false_and, Bool.true_and, Bool.and_false, Bool.and_true,
      Bool.and_self, Bool.false_eq_true, Bool.true_eq_false,
      if_true, if_false, ite_true, ite_false, List.nil_append] at hproj
  · -- was outside, still outside: nothing happens
    have hTm' : timersFor (checkGeofences ins s loc now).1.geofenceDwellTimers r.id
        = timersFor s.geofenceDwellTimers r.id := congrArg IdView.timer hproj
    have hSt' : lookupState (checkGeofences ins s loc now).1.lastGeofenceStates r.id
        = false := congrArg IdView.inside hproj
    have hEv : eventsFor (checkGeofences ins s loc now).2 r.id = [] :=
      congrArg IdView.events hproj
    have hE' : ∀ ty t, emitsAt (E ++ (checkGeofences ins s loc now).2) r.id ty t
        ↔ emitsAt E r.id ty t := by
      intro ty t
      rw [emitsAt_append]
      exact or_iff_left (emitsAt_of_eventsFor_nil hEv ty t)
    rcases hinv.pend with ⟨l, te, hTm0, hP, hlk⟩ | ⟨hTm0, hNP⟩
    · rw [hW] at hlk
      exact absurd hlk (by simp)
    · refine ⟨Or.inr ⟨hTm'.trans hTm0, fun te hP => hNP te
        ⟨(hE' _ te).mp hP.1, fun tx hx => hP.2.1 tx ((hE' _ tx).mpr hx), hP.2.2⟩⟩,
        ?_, ?_, ?_, ?_, ?_⟩
      · rw [hSt']
        constructor
        · intro h
          exact absurd h (by simp)
        · rintro ⟨te, h1, h2⟩
          have hcontra : lookupState s.lastGeofenceStates r.id = true :=
            hinv.inside.mpr ⟨te, (hE' _ te).mp h1,
              fun tx hx => h2 tx ((hE' _ tx).mpr hx)⟩
          rw [hW] at hcontra
          exact absurd hcontra (by simp)
      · intro ty t ht
        exact hinv.bound ty t ((hE' ty t).mp ht)
      · intro t
        rw [hE']
        constructor
        · intro hd
          obtain ⟨te, h1, h2, h3, h4⟩ := (hinv.dwell t).mp hd
          exact ⟨te, h1, (hE' _ te).mpr h2, fun tx hx => h3 tx ((hE' _ tx).mp hx), h4⟩
        · rintro ⟨te, h1, h2, h3, h4⟩
          exact (hinv.dwell t).mpr ⟨te, h1, (hE' _ te).mp h2,
            fun tx hx => h3 tx ((hE' _ tx).mpr hx), h4⟩
      · intro a b ha hb hab
        obtain ⟨tx, h1, h2⟩ := hinv.sep a b ((hE' _ a).mp ha) ((hE' _ b).mp hb) hab
        exact ⟨tx, (hE' _ tx).mpr h1, h2⟩
      · intro te h
        exact hinv.enters te ((hE' _ te).mp h)
  · -- was outside, now inside: enter event, fresh timer
    have hTm' : timersFor (checkGeofences ins s loc now).1.geofenceDwellTimers r.id
        = [⟨r.id, r, loc, now + 10000⟩] := congrArg IdView.timer hproj
    have hSt' : lookupState (checkGeofences ins s loc now).1.lastGeofenceStates r.id
        = true := congrArg IdView.inside hproj
    have hEv : eventsFor (checkGeofences ins s loc now).2 r.id
        = [⟨r, .enter, loc, now⟩] := congrArg IdView.events hproj
    have hE' : ∀ ty t, emitsAt (E ++ (checkGeofences ins s loc now).2) r.id ty t
        ↔ emitsAt E r.id ty t ∨ (GeofenceEventType.enter = ty ∧ now = t) := by
      intro ty t
      rw [emitsAt_append, emitsAt_of_eventsFor_singleton hEv]
    have hNoOpen : ¬ ∃ te, emitsAt E r.id .enter te
        ∧ ∀ tx, emitsAt E r.id .exit tx → tx ≤ te := by
      rw [← hinv.inside, hW]
      simp
    refine ⟨?_, ?_, ?_, ?_, ?_, ?_⟩
    · refine Or.inl ⟨loc, now, hTm', ⟨(hE' _ now).mpr (Or.inr ⟨rfl, rfl⟩),
        fun tx hx => ?_, by omega⟩, hSt'⟩
      rcases (hE' _ tx).mp hx with h | ⟨h, -⟩
      · exact le_of_lt (hex tx h)
      · exact absurd h (by simp)
    · rw [hSt']
      constructor
      · intro _
        refine ⟨now, (hE' _ now).mpr (Or.inr ⟨rfl, rfl⟩), fun tx hx => ?_⟩
        rcases (hE' _ tx).mp hx with h | ⟨h, -⟩
        · exact le_of_lt (hex tx h)
        · exact absurd h (by simp)
      · intro _
        rfl
    · intro ty t ht
      rcases (hE' ty t).mp ht with h | ⟨-, h⟩
      · exact hinv.bound ty t h
      · omega
    · intro t
      have hdw : emitsAt (E ++ (checkGeofences ins s loc now).2) r.id .dwell t
          ↔ emitsAt E r.id .dwell t := by
        rw [hE']
        simp
      rw [hdw]
      constructor
      · intro hd
        obtain ⟨te, h1, h2, h3, h4⟩ := (hinv.dwell t).mp hd
        refine ⟨te, h1, (hE' _ te).mpr (Or.inl h2), fun tx hx => ?_, h4⟩
        rcases (hE' _ tx).mp hx with h | ⟨h, -⟩
        · exact h3 tx h
        · exact absurd h (by simp)
      · rintro ⟨te, h1, h2, h3, h4⟩
        rcases (hE' _ te).mp h2 with h2' | ⟨-, h2'⟩
        · refine (hinv.dwell t).mpr ⟨te, h1, h2',
            fun tx hx => h3 tx ((hE' _ tx).mpr (Or.inl hx)), h4⟩
        · omega
    · intro a b ha hb hab
      rcases (hE' _ a).mp ha with ha' | ⟨-, ha'⟩
      · rcases (hE' _ b).mp hb with hb' | ⟨-, hb'⟩
        · obtain ⟨tx, h1, h2⟩ := hinv.sep a b ha' hb' hab
          exact ⟨tx, (hE' _ tx).mpr (Or.inl h1), h2⟩
        · subst hb'
          have : ¬ ∀ tx, emitsAt E r.id .exit tx → tx ≤ a := by
            intro hall
            exact hNoOpen ⟨a, ha', hall⟩
          push_neg at this
          obtain ⟨tx, hx, hgt⟩ := this
          exact ⟨tx, (hE' _ tx).mpr (Or.inl hx), by omega, lt_of_lt_of_le (hex tx hx) (le_of_eq rfl)⟩
      · subst ha'
        rcases (hE' _ b).mp hb with hb' | ⟨-, hb'⟩
        · exact absurd (hen b hb') (by omega)
        · omega
    · intro te h
      rcases (hE' _ te).mp h with h' | ⟨-, h'⟩
      · exact hinv.enters te h'
      · omega
  · -- was inside, now outside: exit event, timer cancelled
    have hTm' : timersFor (checkGeofences ins s loc now).1.geofenceDwellTimers r.id
        = [] := congrArg IdView.timer hproj
    have hSt' : lookupState (checkGeofences ins s loc now).1.lastGeofenceStates r.id
        = false := congrArg IdView.inside hproj
    have hEv : eventsFor (checkGeofences ins s loc now).2 r.id
        = [⟨r, .exit, loc, now⟩] := congrArg IdView.events hproj
    have hE' : ∀ ty t, emitsAt (E ++ (checkGeofences ins s loc now).2) r.id ty t
        ↔ emitsAt E r.id ty t ∨ (GeofenceEventType.exit = ty ∧ now = t) := by
      intro ty t
      rw [emitsAt_append, emitsAt_of_eventsFor_singleton hEv]
    have hEen : ∀ t, emitsAt (E ++ (checkGeofences ins s loc now).2) r.id .enter t
        ↔ emitsAt E r.id .enter t := by
      intro t
      rw [hE']
      simp
    refine ⟨?_, ?_, ?_, ?_, ?_, ?_⟩
    · refine Or.inr ⟨hTm', fun te hP => ?_⟩
      have h1 := (hEen te).mp hP.1
      have h2 := hP.2.1 now ((hE' _ now).mpr (Or.inr ⟨rfl, rfl⟩))
      exact absurd (hen te h1) (by omega)
    · rw [hSt']
      constructor
      · intro h
        exact absurd h (by simp)
      · rintro ⟨te, h1, h2⟩
        have h1' := (hEen te).mp h1
        have h2' := h2 now ((hE' _ now).mpr (Or.inr ⟨rfl, rfl⟩))
        exact absurd (hen te h1') (by omega)
    · intro ty t ht
      rcases (hE' ty t).mp ht with h | ⟨-, h⟩
      · exact hinv.bound ty t h
      · omega
    · intro t
      have hdw : emitsAt (E ++ (checkGeofences ins s loc now).2) r.id .dwell t
          ↔ emitsAt E r.id .dwell t := by
        rw [hE']
        simp
      rw [hdw]
      constructor
      · intro hd
        obtain ⟨te, h1, h2, h3, h4⟩ := (hinv.dwell t).mp hd
        refine ⟨te, h1, (hEen te).mpr h2, fun tx hx => ?_, h4⟩
        rcases (hE' _ tx).mp hx with h | ⟨-, h⟩
        · exact h3 tx h
        · right
          omega
      · rintro ⟨te, h1, h2, h3, h4⟩
        refine (hinv.dwell t).mpr ⟨te, h1, (hEen te).mp h2,
          fun tx hx => h3 tx ((hE' _ tx).mpr (Or.inl hx)), h4⟩
    · intro a b ha hb hab
      obtain ⟨tx, h1, h2⟩ := hinv.sep a b ((hEen a).mp ha) ((hEen b).mp hb) hab
      exact ⟨tx, (hE' _ tx).mpr (Or.inl h1), h2⟩
    · intro te h
      exact hinv.enters te ((hEen te).mp h)
  · -- was inside, still inside: nothing happens
    have hTm' : timersFor (checkGeofences ins s loc now).1.geofenceDwellTimers r.id
        = timersFor s.geofenceDwellTimers r.id := congrArg IdView.timer hproj
    have hSt' : lookupState (checkGeofences ins s loc now).1.lastGeofenceStates r.id
        = true := congrArg IdView.inside hproj
    have hEv : eventsFor (checkGeofences ins s loc now).2 r.id = [] :=
      congrArg IdView.events hproj
    have hE' : ∀ ty t, emitsAt (E ++ (checkGeofences ins s loc now).2) r.id ty t
        ↔ emitsAt E r.id ty t := by
      intro ty t
      rw [emitsAt_append]
      exact or_iff_left (emitsAt_of_eventsFor_nil hEv ty t)
    refine ⟨?_, ?_, ?_, ?_, ?_, ?_⟩
    · rcases hinv.pend with ⟨l, te, hTm0, hP, hlk⟩ | ⟨hTm0, hNP⟩
      · refine Or.inl ⟨l, te, hTm'.trans hTm0, ⟨(hE' _ te).mpr hP.1,
          fun tx hx => hP.2.1 tx ((hE' _ tx).mp hx), hP.2.2⟩, hSt'⟩
      · exact Or.inr ⟨hTm'.trans hTm0, fun te hP => hNP te
          ⟨(hE' _ te).mp hP.1, fun tx hx => hP.2.1 tx ((hE' _ tx).mpr hx), hP.2.2⟩⟩
    · rw [hSt']
      constructor
      · intro _
        obtain ⟨te, h1, h2⟩ := hinv.inside.mp hW
        exact ⟨te, (hE' _ te).mpr h1, fun tx hx => h2 tx ((hE' _ tx).mp hx)⟩
      · intro _
        rfl
    · intro ty t ht
      exact hinv.bound ty t ((hE' ty t).mp ht)
    · intro t
      rw [hE']
      constructor
      · intro hd
        obtain ⟨te, h1, h2, h3, h4⟩ := (hinv.dwell t).mp hd
        exact ⟨te, h1, (hE' _ te).mpr h2, fun tx hx => h3 tx ((hE' _ tx).mp hx), h4⟩
      · rintro ⟨te, h1, h2, h3, h4⟩
        exact (hinv.dwell t).mpr ⟨te, h1, (hE' _ te).mp h2,
          fun tx hx => h3 tx ((hE' _ tx).mpr hx), h4⟩
    · intro a b ha hb hab
      obtain ⟨tx, h1, h2⟩ := hinv.sep a b ((hE' _ a).mp ha) ((hE' _ b).mp hb) hab
      exact ⟨tx, (hE' _ tx).mpr h1, h2⟩
    · intro te h
      exact hinv.enters te ((hE' _ te).mp h)

end Ctx

end Solomo

namespace Solomo

namespace Ctx

lemma dwellInv_geoStep_update {C : Type} (ins : GeofenceRegion C → C × C → Bool)
    (r : GeofenceRegion C) (s : CtxState C) (E : List (GeofenceEvent C))
    (tp now T : Nat) (loc : C × C)
    (hr : r ∈ s.geofences) (hnd : (s.geofences.map (·.id)).Nodup)
    (hwf : TimersWF s) (hinv : DwellInv r T s E tp)
    (htp : tp < now) (hT : now + 10000 ≤ T) :
    DwellInv r T (geoStep ins s now (GeoCmd.update loc)).1
      (E ++ (geoStep ins s now (GeoCmd.update loc)).2) now := by
  have hstep : geoStep ins s now (GeoCmd.update loc)
      = ((checkGeofences ins (fireDue s now).1 loc now).1,
         (fireDue s now).2 ++ (checkGeofences ins (fireDue s now).1 loc now).2) := rfl
  rw [hstep]
  dsimp only
  rw [← List.append_assoc]
  have h1 := dwellInv_fireDue r s E tp now T hwf hinv htp
  have hr1 : r ∈ (fireDue s now).1.geofences := hr
  have hnd1 : ((fireDue s now).1.geofences.map (·.id)).Nodup := hnd
  have hen : ∀ t, emitsAt (E ++ (fireDue s now).2) r.id .enter t → t < now := by
    intro t ht
    rcases (emitsAt_append ..).mp ht with h | h
    · exact lt_of_le_of_lt (hinv.bound _ t h) htp
    · exact absurd h (fireDue_only_dwell s now r.id hwf _ t (by simp))
  have hex : ∀ t, emitsAt (E ++ (fireDue s now).2) r.id .exit t → t < now := by
    intro t ht
    rcases (emitsAt_append ..).mp ht with h | h
    · exact lt_of_le_of_lt (hinv.bound _ t h) htp
    · exact absurd h (fireDue_only_dwell s now r.id hwf _ t (by simp))
  exact dwellInv_checkGeofences ins r (fireDue s now).1 (E ++ (fireDue s now).2)
    now T loc hr1 hnd1 h1 hen hex hT

lemma geoStep_update_geofences {C : Type} (ins : GeofenceRegion C → C × C → Bool)
    (s : CtxState C) (now : Nat) (loc : C × C) :
    (geoStep ins s now (GeoCmd.update loc)).1.geofences = s.geofences :=
  checkGeofences_geofences ins (fireDue s now).1 loc now

lemma timersWF_geoStep_update {C : Type} (ins : GeofenceRegion C → C × C → Bool)
    (s : CtxState C) (now : Nat) (loc : C × C) (hwf : TimersWF s) :
    TimersWF (geoStep ins s now (GeoCmd.update loc)).1 :=
  timersWF_checkGeofences ins (fireDue s now).1 loc now (timersWF_fireDue s now hwf)

/-- Commands allowed while a registration is in force: position updates whose
due time fits the horizon, and pure time passage. -/
def UpdAdv {C : Type} (T : Nat) (c : Nat × GeoCmd C) : Prop :=
  (c.1 + 10000 ≤ T ∧ ∃ loc, c.2 = GeoCmd.update loc) ∨ c.2 = GeoCmd.advance

lemma dwellInv_geoRun {C : Type} (ins : GeofenceRegion C → C × C → Bool)
    (r : GeofenceRegion C) (T : Nat) (cmds : List (Nat × GeoCmd C)) :
    ∀ (s : CtxState C) (E : List (GeofenceEvent C)) (tp : Nat),
      r ∈ s.geofences → (s.geofences.map (·.id)).Nodup → TimersWF s →
      DwellInv r T s E tp →
      List.Chain' (· < ·) (tp :: cmds.map (·.1)) →
      (∀ c ∈ cmds, UpdAdv T c) →
      DwellInv r T (geoRun ins s cmds).1 (E ++ (geoRun ins s cmds).2)
        ((cmds.map (·.1)).getLastD tp) := by
  induction cmds with
  | nil =>
    intro s E tp _ _ _ h4 _ _
    have hrun : geoRun ins s ([] : List (Nat × GeoCmd C)) = (s, []) := rfl
    rw [hrun]
    simpa using h4
  | cons c rest ih =>
    intro s E tp hr hnd hwf hinv hch hok
    obtain ⟨now, cmd⟩ := c
    have hnow : tp < now := (List.chain'_cons.mp hch).1
    have hch' : List.Chain' (· < ·) (now :: rest.map (·.1)) :=
      (List.chain'_cons.mp hch).2
    have hcmd := hok (now, cmd) (List.mem_cons_self _ _)
    have hok' : ∀ c ∈ rest, UpdAdv T c :=
      fun c hc => hok c (List.mem_cons_of_mem _ hc)
    have hrun : geoRun ins s ((now, cmd) :: rest)
        = ((geoRun ins (geoStep ins s now cmd).1 rest).1,
           (geoStep ins s now cmd).2
             ++ (geoRun ins (geoStep ins s now cmd).1 rest).2) := rfl
    rw [hrun]
    dsimp only
    rw [← List.append_assoc, List.map_cons, List.getLastD_cons]
    rcases hcmd with ⟨hTc, loc, hupd⟩ | hadv
    · simp only at hupd
      subst hupd
      have hg := geoStep_update_geofences ins s now loc
      have hr' : r ∈ (geoStep ins s now (GeoCmd.update loc)).1.geofences := by
        rw [hg]
        exact hr
      have hnd' : ((geoStep ins s now (GeoCmd.update loc)).1.geofences.map (·.id)).Nodup := by
        rw [hg]
        exact hnd
      exact ih (geoStep ins s now (GeoCmd.update loc)).1
        (E ++ (geoStep ins s now (GeoCmd.update loc)).2) now hr' hnd'
        (timersWF_geoStep_update ins s now loc hwf)
        (dwellInv_geoStep_update ins r s E tp now T loc hr hnd hwf hinv hnow
          (by simpa using hTc))
        hch' hok'
    · simp only at hadv
      subst hadv
      have hstep : geoStep ins s now (GeoCmd.advance : GeoCmd C)
          = ((fireDue s now).1, (fireDue s now).2) := rfl
      rw [hstep]
      exact ih (fireDue s now).1 (E ++ (fireDue s now).2) now hr hnd
        (timersWF_fireDue s now hwf)
        (dwellInv_fireDue r s E tp now T hwf hinv hnow)
        hch' hok'

end Ctx

end Solomo

namespace Solomo

/-- C3: starting from a fresh registration of regions with distinct ids, over
any strictly time-ordered sequence of position updates followed by enough time
passage (horizon `T` at least 10 s past every update), a `dwell` event for a
region is emitted at time `te + 10000` iff an `enter` for that region id was
emitted at `te` and no `exit` for the same id intervenes before the dwell
fires; moreover every evaluator step keeps at most one pending dwell timer per
region id, an `exit` transition cancels the pending timer for its id, and an
`enter` transition replaces the timers for its id by exactly one timer due
10 seconds later. -/
theorem c3_dwell_semantics :
    (∀ (C : Type) (ins : Ctx.GeofenceRegion C → C × C → Bool)
      (rs : List (Ctx.GeofenceRegion C)) (r : Ctx.GeofenceRegion C)
      (updates : List (Nat × (C × C))) (T : Nat),
      (rs.map (·.id)).Nodup → r ∈ rs → 0 < T →
      List.Chain' (· < ·) (0 :: updates.map (·.1)) →
      (∀ u ∈ updates, u.1 + 10000 ≤ T) →
      ∀ t : Nat,
        Ctx.emitsAt (Ctx.geoRun ins (Ctx.registerGeofences Ctx.freshCtx rs)
            (updates.map (fun u => (u.1, Ctx.GeoCmd.update u.2))
              ++ [(T, Ctx.GeoCmd.advance)])).2
          r.id Ctx.GeofenceEventType.dwell t
        ↔ ∃ te, t = te + 10000
            ∧ Ctx.emitsAt (Ctx.geoRun ins (Ctx.registerGeofences Ctx.freshCtx rs)
                (updates.map (fun u => (u.1, Ctx.GeoCmd.update u.2))
                  ++ [(T, Ctx.GeoCmd.advance)])).2
                r.id Ctx.GeofenceEventType.enter te
            ∧ ∀ tx, Ctx.emitsAt (Ctx.geoRun ins (Ctx.registerGeofences Ctx.freshCtx rs)
                (updates.map (fun u => (u.1, Ctx.GeoCmd.update u.2))
                  ++ [(T, Ctx.GeoCmd.advance)])).2
                r.id Ctx.GeofenceEventType.exit tx → tx ≤ te ∨ t ≤ tx)
    ∧ (∀ (C : Type) (ins : Ctx.GeofenceRegion C → C × C → Bool)
        (s : Ctx.CtxState C) (now : Nat) (c : Ctx.GeoCmd C),
      (s.geofenceDwellTimers.map (·.id)).Nodup →
      (((Ctx.geoStep ins s now c).1.geofenceDwellTimers).map (·.id)).Nodup)
    ∧ (∀ (C : Type) (ins : Ctx.GeofenceRegion C → C × C → Bool)
        (s : Ctx.CtxState C) (loc : C × C) (now : Nat) (r : Ctx.GeofenceRegion C),
      r ∈ s.geofences → (s.geofences.map (·.id)).Nodup →
      Ctx.lookupState s.lastGeofenceStates r.id = true → ins r loc = false →
      Ctx.timersFor (Ctx.checkGeofences ins s loc now).1.geofenceDwellTimers r.id = [])
    ∧ (∀ (C : Type) (ins : Ctx.GeofenceRegion C → C × C → Bool)
        (s : Ctx.CtxState C) (loc : C × C) (now : Nat) (r : Ctx.GeofenceRegion C),
      r ∈ s.geofences → (s.geofences.map (·.id)).Nodup →
      Ctx.lookupState s.lastGeofenceStates r.id = false → ins r loc = true →
      Ctx.timersFor (Ctx.checkGeofences ins s loc now).1.geofenceDwellTimers r.id
        = [⟨r.id, r, loc, now + 10000⟩]) := by
  refine ⟨?_, ?_, ?_, ?_⟩
  · intro C ins rs r updates T hnd hr hT0 hch hsched t
    have hbase : Ctx.DwellInv r T (Ctx.registerGeofences Ctx.freshCtx rs) [] 0 := by
      refine ⟨Or.inr ⟨rfl, fun te hP => absurd hP.1 (Ctx.emitsAt_nil _ _ _)⟩,
        ?_, ?_, ?_, ?_, ?_⟩
      · constructor
        · intro h
          have hfalse : Ctx.lookupState
              (Ctx.registerGeofences Ctx.freshCtx rs).lastGeofenceStates r.id
              = false := rfl
          rw [hfalse] at h
          exact absurd h (by simp)
        · rintro ⟨te, h1, -⟩
          exact absurd h1 (Ctx.emitsAt_nil _ _ _)
      · intro ty t' h
        exact absurd h (Ctx.emitsAt_nil _ _ _)
      · intro t'
        constructor
        · intro h
          exact absurd h (Ctx.emitsAt_nil _ _ _)
        · rintro ⟨te, -, h2, -⟩
          exact absurd h2 (Ctx.emitsAt_nil _ _ _)
      · intro a b ha _ _
        exact absurd ha (Ctx.emitsAt_nil _ _ _)
      · intro te h
        exact absurd h (Ctx.emitsAt_nil _ _ _)
    have htimes : ((updates.map (fun u : Nat × (C × C) => (u.1, Ctx.GeoCmd.update u.2))
        ++ [(T, Ctx.GeoCmd.advance)]).map (fun c : Nat × Ctx.GeoCmd C => c.1))
        = updates.map (fun u : Nat × (C × C) => u.1) ++ [T] := by
      rw [List.map_append, List.map_map]
      rfl
    have hchain : List.Chain' (· < ·)
        (0 :: (updates.map (fun u : Nat × (C × C) => (u.1, Ctx.GeoCmd.update u.2))
          ++ [(T, Ctx.GeoCmd.advance)]).map (fun c : Nat × Ctx.GeoCmd C => c.1)) := by
      rw [htimes]
      have hsplit : (0 :: (updates.map (fun u : Nat × (C × C) => u.1) ++ [T]))
          = ((0 :: updates.map (fun u : Nat × (C × C) => u.1)) ++ [T]) := rfl
      rw [hsplit, List.chain'_append]
      refine ⟨hch, List.chain'_singleton T, ?_⟩
      intro x hx y hy
      have hy' : T = y := by simpa using hy
      subst hy'
      obtain ⟨hne, hxeq⟩ := List.mem_getLast?_eq_getLast hx
      have hmem : x ∈ 0 :: updates.map (fun u : Nat × (C × C) => u.1) := hxeq ▸ List.getLast_mem hne
      rcases List.mem_cons.mp hmem with h0 | hmemtimes
      · omega
      · obtain ⟨u, hu, hux⟩ := List.mem_map.mp hmemtimes
        have := hsched u hu
        omega
    have hok : ∀ c ∈ (updates.map (fun u : Nat × (C × C) => (u.1, Ctx.GeoCmd.update u.2))
        ++ [(T, Ctx.GeoCmd.advance)]), Ctx.UpdAdv T c := by
      intro c hc
      rcases List.mem_append.mp hc with h | h
      · obtain ⟨u, hu, rfl⟩ := List.mem_map.mp h
        exact Or.inl ⟨hsched u hu, u.2, rfl⟩
      · rw [List.mem_singleton.mp h]
        exact Or.inr rfl
    have hr0 : r ∈ (Ctx.registerGeofences Ctx.freshCtx rs).geofences := hr
    have hnd0 : ((Ctx.registerGeofences Ctx.freshCtx rs).geofences.map (·.id)).Nodup := hnd
    have hwf0 : Ctx.TimersWF (Ctx.registerGeofences Ctx.freshCtx rs) := by
      intro tm hm
      exact absurd hm (List.not_mem_nil tm)
    have hfin := Ctx.dwellInv_geoRun ins r T
      (updates.map (fun u : Nat × (C × C) => (u.1, Ctx.GeoCmd.update u.2)) ++ [(T, Ctx.GeoCmd.advance)])
      (Ctx.registerGeofences Ctx.freshCtx rs) [] 0 hr0 hnd0 hwf0 hbase hchain hok
    rw [htimes, List.getLastD_concat, List.nil_append] at hfin
    constructor
    · intro hd
      obtain ⟨te, h1, h2, h3, -⟩ := (hfin.dwell t).mp hd
      exact ⟨te, h1, h2, h3⟩
    · rintro ⟨te, h1, h2, h3⟩
      have hTe := hfin.enters te h2
      exact (hfin.dwell t).mpr ⟨te, h1, h2, h3, by omega⟩
  · intro C ins s now c hnd
    exact Ctx.nodupKeys_geoStep ins s now c hnd
  · intro C ins s loc now r hr hnd hW hI
    have hproj := Ctx.checkGeofences_idView ins s loc now r hr hnd
    have hidv : Ctx.idView r.id
        (⟨s.lastGeofenceStates, s.geofenceDwellTimers, []⟩ : Ctx.GeoAcc C)
        = ⟨Ctx.lookupState s.lastGeofenceStates r.id,
           Ctx.timersFor s.geofenceDwellTimers r.id, []⟩ := by
      unfold Ctx.idView
      simp [Ctx.eventsFor]
    rw [hidv, hW] at hproj
    simp only [Ctx.idStep, hI, Bool.not_true, Bool.false_and, Bool.and_false,
      Bool.true_and, Bool.and_true, Bool.not_false, Bool.false_eq_true,
      Bool.true_eq_false, if_true, if_false, ite_true, ite_false] at hproj
    exact congrArg Ctx.IdView.timer hproj
  · intro C ins s loc now r hr hnd hW hI
    have hproj := Ctx.checkGeofences_idView ins s loc now r hr hnd
    have hidv : Ctx.idView r.id
        (⟨s.lastGeofenceStates, s.geofenceDwellTimers, []⟩ : Ctx.GeoAcc C)
        = ⟨Ctx.lookupState s.lastGeofenceStates r.id,
           Ctx.timersFor s.geofenceDwellTimers r.id, []⟩ := by
      unfold Ctx.idView
      simp [Ctx.eventsFor]
    rw [hidv, hW] at hproj
    simp only [Ctx.idStep, hI, Bool.not_true, Bool.false_and, Bool.and_false,
      Bool.true_and, Bool.and_true, Bool.not_false, Bool.false_eq_true,
      Bool.true_eq_false, if_true, if_false, ite_true, ite_false] at hproj
    exact congrArg Ctx.IdView.timer hproj

/-- Concrete single-region state whose containment bit is set, over integer
coordinates, for the C3 witness. -/
def exGeoIn : Ctx.CtxState Int :=
  { (Ctx.freshCtx : Ctx.CtxState Int) with
      geofences := [Ctx.demoRegion]
      lastGeofenceStates := [("home", true)] }

/-- Closed witness for C3: at a concrete inside state, an update that leaves
the region cancels the pending dwell timer for its id. -/
theorem c3_witness :
    Ctx.timersFor (Ctx.checkGeofences Ctx.insCenter exGeoIn (5, 5) 7).1.geofenceDwellTimers
        Ctx.demoRegion.id = [] :=
  c3_dwell_semantics.2.2.1 Int Ctx.insCenter exGeoIn (5, 5) 7 Ctx.demoRegion
    (by decide) (by decide) (by decide) (by decide)

end Solomo
